import Mathlib

/-!
# Verification of the freenet telemetry dashboard WebSocket server

A shallow embedding of `ws_server.py`: the in-memory network model, the event
interpreter (`process_record`), the stale-peer cleanup sweep
(`cleanup_stale_peers`), the log-tailer's per-line dispatch, the per-client
bounded send queue, the peer-name rate limiter and moderator front end, and the
operation-statistics snapshot.  Python dicts are modelled as association lists
(`List (key × value)`) queried through `alist_get`; Python sets of strings as
`List String` with membership semantics; integer-nanosecond timestamps as `Int`;
float ring locations and latencies as `Rat`.  The two SHA-256 derived
identifiers (`anonymize_ip`, `ip_hash`) are opaque external hashes and are
threaded through the model as a function parameter (`HashCfg`).
-/

namespace WsServer

/-! ## Association-list primitives (Python `dict` operations) -/

/-- Python `d.get(k)`. -/
def alist_get (k : String) : List (String × α) → Option α
  | [] => none
  | (k', v) :: t => if k' = k then some v else alist_get k t

/-- Python `d[k] = v`: replace the binding in place if the key is present,
otherwise append (Python dicts keep insertion order). -/
def alist_set (k : String) (v : α) : List (String × α) → List (String × α)
  | [] => [(k, v)]
  | (k', v') :: t => if k' = k then (k, v) :: t else (k', v') :: alist_set k v t

/-- Python `if k in d: d[k] = f(d[k])` — adjust the value in place, no-op when
the key is absent. -/
def alist_adjust (k : String) (f : α → α) : List (String × α) → List (String × α)
  | [] => []
  | (k', v') :: t => if k' = k then (k', f v') :: t else (k', v') :: alist_adjust k f t

/-- Python `d.pop(k, None)` / `del d[k]` (drops every binding of the key). -/
def alist_pop (k : String) (l : List (String × α)) : List (String × α) :=
  l.filter (fun p => p.1 ≠ k)

/-- Keys of an association list. -/
def alist_keys (l : List (String × α)) : List String := l.map Prod.fst

/-! ## String helpers shared by several functions of the source -/

/-- Python's `\w` on ASCII input: letters, digits, underscore. -/
def is_word_char (c : Char) : Bool := c.isAlphanum || c = '_'

/-- Membership of a character in the locally allowed punctuation of the
fallback name filter `[^\w\s\-_.!/]`. -/
def is_name_punct (c : Char) : Bool := c = '-' || c = '_' || c = '.' || c = '!' || c = '/'

/-- Python `s.strip()`: drop whitespace from both ends.  (Implemented on the
character list so that it reduces inside the kernel.) -/
def py_strip (s : String) : String :=
  String.mk (((s.data.dropWhile Char.isWhitespace).reverse.dropWhile Char.isWhitespace).reverse)

/-- Python `s.lower()` on ASCII input. -/
def py_lower (s : String) : String := String.mk (s.data.map Char.toLower)

/-- Python `s.startswith(pre)`. -/
def py_startswith (pre s : String) : Bool := pre.data.isPrefixOf s.data

/-- Python `s[:n]` (slicing by code point). -/
def py_take (s : String) (n : Nat) : String := String.mk (s.data.take n)

/-- Python `c in s` for a single character. -/
def py_has_char (s : String) (c : Char) : Bool := s.data.contains c

/-- The characters after the first occurrence of `sep` (`s.split(sep, 1)[1]`
when `sep` occurs). -/
def after_char (sep : Char) : List Char → Option (List Char)
  | [] => none
  | c :: rest => if c = sep then some rest else after_char sep rest

/-- Python `addr.split(":")[0]`: the prefix before the first colon (the whole
string when there is none). -/
def split_colon_head (s : String) : String := String.mk (s.data.takeWhile (fun c => c ≠ ':'))

/-! ## `is_public_ip` (ws_server.py lines 501-509) -/
def is_public_ip (ip : String) : Bool :=
  if ip = "" then false
  else if py_startswith "127." ip || py_startswith "172." ip || py_startswith "10." ip
          || py_startswith "192.168." ip then false
  else if py_startswith "0." ip || ip = "localhost" then false
  else true

/-! ## `parse_peer_string` (lines 483, 536-546)

The regex `(\w+)@(\d+\.\d+\.\d+\.\d+):(\d+)\s*\(@\s*([\d.]+)\)` applied with
`re.search`, i.e. at the leftmost position where it matches.  A successful
match yields the peer id (group 1), the IPv4 text (group 2) and
`float(group 4)` as the ring location.  The port (group 3) is captured but
unused.  `float` on a digits-and-dots string with more than one dot (or with
no digits) raises `ValueError` in Python and the exception propagates out of
`parse_peer_string`; that raise is modelled separately by
`peer_string_raises` below (the regex match is found *before* `float` is
consulted, so the raise happens exactly when the leftmost match carries an
inconvertible location text).  `parse_peer_string` itself is the value of the
call when it does not raise: on such inputs the leftmost position where
`match_peer_at` succeeds is the leftmost regex match. -/
structure PeerRef where
  pid : String
  ip : String
  loc : Rat
deriving DecidableEq, Repr

/-- Digits-and-dots text accepted by Python's `float`: at most one dot and at
least one digit. -/
def parse_loc (cs : List Char) : Option Rat :=
  match cs.splitOn '.' with
  | [w] => if w = [] then none else some ((w.foldl (fun n c => n * 10 + (c.toNat - 48)) 0 : Nat) : Rat)
  | [w, f] =>
    if w = [] && f = [] then none
    else
      let wn : Nat := w.foldl (fun n c => n * 10 + (c.toNat - 48)) 0
      let fn : Nat := f.foldl (fun n c => n * 10 + (c.toNat - 48)) 0
      some ((wn : Rat) + (fn : Rat) / ((10 : Rat) ^ f.length))
  | _ => none

/-- Match one `\d+` group, returning the digits and the rest. -/
def take_digits (cs : List Char) : Option (List Char × List Char) :=
  let d := cs.takeWhile Char.isDigit
  if d = [] then none else some (d, cs.drop d.length)

/-- Try to match the full peer-string pattern starting exactly at the head of
`cs`. -/
def match_peer_at (cs : List Char) : Option PeerRef := do
  let w := cs.takeWhile is_word_char
  if w = [] then none else
  let cs := cs.drop w.length
  match cs with
  | '@' :: cs => do
    let (d1, cs) ← take_digits cs
    match cs with
    | '.' :: cs => do
      let (d2, cs) ← take_digits cs
      match cs with
      | '.' :: cs => do
        let (d3, cs) ← take_digits cs
        match cs with
        | '.' :: cs => do
          let (d4, cs) ← take_digits cs
          match cs with
          | ':' :: cs => do
            let (_, cs) ← take_digits cs
            let cs := cs.dropWhile Char.isWhitespace
            match cs with
            | '(' :: '@' :: cs =>
              let cs := cs.dropWhile Char.isWhitespace
              let locCs := cs.takeWhile (fun c => c.isDigit || c = '.')
              if locCs = [] then none else
              match cs.drop locCs.length with
              | ')' :: _ => do
                let loc ← parse_loc locCs
                let ip := String.mk (d1 ++ '.' :: d2 ++ '.' :: d3 ++ '.' :: d4)
                some ⟨String.mk w, ip, loc⟩
              | _ => none
            | _ => none
          | _ => none
        | _ => none
      | _ => none
    | _ => none
  | _ => none

/-- `re.search`: first position at which the pattern matches. -/
def search_peer : List Char → Option PeerRef
  | [] => none
  | c :: cs =>
    match match_peer_at (c :: cs) with
    | some r => some r
    | none => search_peer cs

/-- `parse_peer_string(peer_str)`: `(None, None, None)` on empty input or no
match, modelled as `none`. -/
def parse_peer_string (s : String) : Option PeerRef :=
  if s = "" then none else search_peer s.data

/-! ## Hash configuration

`anonymize_ip` and `ip_hash` (lines 486-498) truncate a SHA-256 digest; the
digest itself is an opaque external computation, so the model is parameterized
by the two hash functions.  The empty-input guards of the source are kept. -/
structure HashCfg where
  anon_fn : String → String
  hash_fn : String → String

/-- `anonymize_ip(ip)`: `"unknown"` on falsy input, otherwise
`"peer-" + sha256(ip)[:8]` (the hash part is the configured function). -/
def anonymize_ip (cfg : HashCfg) (ip : String) : String :=
  if ip = "" then "unknown" else cfg.anon_fn ip

/-- `ip_hash(ip)`: `""` on falsy input, otherwise `sha256(ip)[:6]`. -/
def ip_hash (cfg : HashCfg) (ip : String) : String :=
  if ip = "" then "" else cfg.hash_fn ip

/-! ## Telemetry record shape

A record as `process_record` reads it: the attribute map contributes
`event_type`, `peer_id` and `transaction_id`; `timeUnixNano` is the (already
converted) integer timestamp; the JSON body contributes the fields probed by
the interpreter.  `none` models an absent key; Python string truthiness is
`(· ≠ "")` of the `getD ""` value. -/
structure Attrs where
  event_type : Option String := none
  peer_id : Option String := none
  transaction_id : Option String := none
deriving DecidableEq, Repr

structure Body where
  /-- the body's `type` field -/
  btype : Option String := none
  id : Option String := none
  state_hash : Option String := none
  state_hash_before : Option String := none
  state_hash_after : Option String := none
  contract_key : Option String := none
  key : Option String := none
  instance_id : Option String := none
  this_peer : Option String := none
  requester : Option String := none
  target : Option String := none
  connected_peer : Option String := none
  subscriber : Option String := none
  upstream : Option String := none
  sender : Option String := none
  broadcast_to : Option (List String) := none
  from_addr : Option String := none
  to_addr : Option String := none
  peer_addr : Option String := none
  this_peer_addr : Option String := none
  from_peer_addr : Option String := none
  connected_peer_addr : Option String := none
  reason : Option String := none
  downstream : Option (List String) := none
  downstream_count : Option Int := none
  is_seeding : Option Bool := none
  version : Option String := none
  arch : Option String := none
  os : Option String := none
  os_version : Option String := none
  is_gateway : Option Bool := none
  graceful : Option Bool := none
  direction : Option String := none
  bytes_transferred : Option Int := none
  elapsed_ms : Option Int := none
  avg_throughput_bps : Option Int := none
  final_cwnd_bytes : Option Int := none
  final_srtt_ms : Option Int := none
  slowdowns_triggered : Option Int := none
  total_timeouts : Option Int := none
deriving DecidableEq, Repr

structure Record where
  attrs : Attrs := {}
  timestamp : Int := 0
  body : Body := {}
deriving DecidableEq, Repr

/-- Python string truthiness of an optional string field. -/
def sget (o : Option String) : String := o.getD ""

/-! ## The in-memory network model (module-level dicts, lines 330-480) -/
structure PeerData where
  id : String
  ip_hash : String
  location : Rat
  last_seen : Int
  connections : List String
  peer_id : String
deriving DecidableEq, Repr

structure Presence where
  id : String
  ip_hash : String
  location : Rat
  first_seen : Int
  peer_id : String
deriving DecidableEq, Repr

structure SubData where
  subscribers : List String
  tree : List (String × List String)
deriving DecidableEq, Repr

structure SeedState where
  is_seeding : Bool
  upstream : Option String
  downstream : List String
  downstream_count : Int
  stopped_reason : Option String := none
  unsubscribed_reason : Option String := none
deriving DecidableEq, Repr

/-- One `(contract, peer)` contract-state record (`hash`, `timestamp`,
`event_type`). -/
structure CState where
  hash : String
  timestamp : Int
  event_type : String
deriving DecidableEq, Repr

structure PrevProp where
  hash : String
  first_seen : Int
  propagation_ms : Int
  peer_count : Nat
deriving DecidableEq, Repr

structure PropData where
  current_hash : Option String := none
  first_seen : Option Int := none
  last_seen : Option Int := none
  peers : List (String × Int) := []
  previous : Option PrevProp := none
deriving DecidableEq, Repr

structure PutStats where
  requests : Nat := 0
  successes : Nat := 0
  latencies : List Rat := []
deriving DecidableEq, Repr

structure GetStats where
  requests : Nat := 0
  successes : Nat := 0
  not_found : Nat := 0
  latencies : List Rat := []
deriving DecidableEq, Repr

structure UpdateStats where
  requests : Nat := 0
  successes : Nat := 0
  broadcasts : Nat := 0
  latencies : List Rat := []
deriving DecidableEq, Repr

structure SubscribeStats where
  requests : Nat := 0
  successes : Nat := 0
deriving DecidableEq, Repr

structure OpStats where
  put : PutStats := {}
  get : GetStats := {}
  update : UpdateStats := {}
  subscribe : SubscribeStats := {}
deriving DecidableEq, Repr

structure Lifecycle where
  version : String
  arch : String
  os : String
  os_version : Option String
  is_gateway : Bool
  startup_time : Int
  shutdown_time : Option Int
  graceful : Option Bool
  shutdown_reason : Option String := none
deriving DecidableEq, Repr

structure PendingOp where
  op : String
  start_ns : Int
deriving DecidableEq, Repr

structure TxEvent where
  timestamp : Int
  event_type : String
  peer_id : String
deriving DecidableEq, Repr

structure Tx where
  op : String
  contract : Option String
  events : List TxEvent
  start_ns : Int
  end_ns : Option Int
  status : String
deriving DecidableEq, Repr

structure TransferEvent where
  timestamp : Int
  peer_id : String
  direction : String
  bytes : Int
  elapsed_ms : Int
  throughput_bps : Int
  cwnd : Int
  rtt_ms : Int
  slowdowns : Int
  timeouts : Int
deriving DecidableEq, Repr

/-- The outbound event dict built at lines 1320-1363.  `time_str` (a wall-clock
display string) is presentation-only and not modelled. -/
structure Event where
  timestamp : Int
  event_type : String
  peer_id : String
  peer_ip_hash : String
  location : Option Rat
  from_peer : Option String := none
  from_location : Option Rat := none
  to_peer : Option String := none
  to_location : Option Rat := none
  connection : Option (String × String) := none
  disconnection : Option (String × String) := none
  contract : Option String := none
  contract_full : Option String := none
  state_hash : Option String := none
  state_hash_before : Option String := none
  state_hash_after : Option String := none
  tx_id : Option String := none
deriving DecidableEq, Repr

/-- `process_record` returns either a regular event dict or (for
`transfer_completed`) a transfer dict. -/
inductive OutMsg where
  | ev : Event → OutMsg
  | transfer : TransferEvent → OutMsg
deriving DecidableEq, Repr

/-- A total order on code-point lists, written structurally so that it reduces
inside the kernel (the choice of order is immaterial: it only picks a canonical
representative of the unordered pair). -/
def chars_le : List Char → List Char → Bool
  | [], _ => true
  | _ :: _, [] => false
  | a :: as, b :: bs => if a = b then chars_le as bs else decide (a.toNat < b.toNat)

def str_le (a b : String) : Bool := chars_le a.data b.data

/-- An undirected connection (`frozenset({ip1, ip2})`), canonicalised as a
sorted pair; a self-pair `(a, a)` models the singleton frozenset. -/
def mk_conn (a b : String) : String × String :=
  if str_le a b then (a, b) else (b, a)

/-- Membership of an IP in a connection. -/
def conn_mem (ip : String) (c : String × String) : Bool := c.1 = ip || c.2 = ip

/-- `conn & stale_ips` is nonempty. -/
def conn_touches (c : String × String) (ips : List String) : Bool :=
  decide (c.1 ∈ ips) || decide (c.2 ∈ ips)

/-- The whole module-level mutable state of `ws_server.py` that the event
interpreter and the cleanup sweep read and write.  (The event-history deque,
which no claim inspects and whose pruning reads the wall clock, is not part of
the model; `store_history` only gates appends to it.) -/
structure ServerState where
  peers : List (String × PeerData) := []
  connections : List (String × String) := []
  ip_to_peer_id : List (String × String) := []
  peer_id_to_ip : List (String × String) := []
  attrs_peer_id_to_ip : List (String × String) := []
  peer_presence : List (String × Presence) := []
  subscriptions : List (String × SubData) := []
  seeding_state : List (String × List (String × SeedState)) := []
  contract_states : List (String × List (String × CState)) := []
  contract_propagation : List (String × PropData) := []
  op_stats : OpStats := {}
  peer_lifecycle : List (String × Lifecycle) := []
  pending_ops : List (String × PendingOp) := []
  transactions : List (String × Tx) := []
  transaction_order : List String := []
  transfer_events : List TransferEvent := []
deriving DecidableEq, Repr

/-- The state at process start: every index empty. -/
def init_state : ServerState := {}

/-! ## `update_propagation_tracking` (lines 389-420) -/
def PROPAGATION_WINDOW_NS : Int := 5 * 60 * 1000000000

def update_propagation_tracking (contract_key peer_id state_hash : String) (timestamp : Int)
    (props : List (String × PropData)) : List (String × PropData) :=
  let prop := (alist_get contract_key props).getD {}
  if prop.current_hash ≠ some state_hash then
    -- archive the current state as previous (if it exists and has peers);
    -- reachable entries carry first_seen whenever current_hash is set, the
    -- getD defaults below only pad unreachable corner states
    let prop :=
      if prop.current_hash.isSome && !prop.peers.isEmpty then
        let fs := prop.first_seen.getD 0
        let prev : PrevProp :=
          { hash := prop.current_hash.getD ""
            first_seen := fs
            propagation_ms := Int.fdiv ((prop.last_seen.getD fs) - fs) 1000000
            peer_count := prop.peers.length }
        { prop with previous := some prev }
      else prop
    let prop :=
      { prop with
          current_hash := some state_hash
          first_seen := some timestamp
          last_seen := some timestamp
          peers := [(peer_id, timestamp)] }
    alist_set contract_key prop props
  else
    if alist_get peer_id prop.peers = none then
      let fs := prop.first_seen.getD timestamp
      if timestamp - fs ≤ PROPAGATION_WINDOW_NS then
        let prop :=
          { prop with
              peers := alist_set peer_id timestamp prop.peers
              last_seen := some (max (prop.last_seen.getD timestamp) timestamp) }
        alist_set contract_key prop props
      else alist_set contract_key prop props
    else alist_set contract_key prop props

/-! ## `update_contract_state` (lines 364-386) -/
def update_contract_state (contract_key peer_id state_hash : String) (timestamp : Int)
    (event_type : String) (s : ServerState) : ServerState :=
  if contract_key = "" || peer_id = "" || state_hash = "" then s
  else
    let inner := (alist_get contract_key s.contract_states).getD []
    match alist_get peer_id inner with
    | some existing =>
      if existing.timestamp ≥ timestamp then s
      else write_contract_state contract_key peer_id state_hash timestamp event_type s
    | none => write_contract_state contract_key peer_id state_hash timestamp event_type s
where
  write_contract_state (contract_key peer_id state_hash : String) (timestamp : Int)
      (event_type : String) (s : ServerState) : ServerState :=
    let inner := (alist_get contract_key s.contract_states).getD []
    let inner := alist_set peer_id ⟨state_hash, timestamp, event_type⟩ inner
    let s := { s with contract_states := alist_set contract_key inner s.contract_states }
    if event_type = "update_success" || event_type = "update_broadcast_applied"
        || event_type = "update_broadcast_emitted" then
      let props := update_propagation_tracking contract_key peer_id state_hash timestamp
        s.contract_propagation
      { s with contract_propagation := props }
    else s

/-! ## Transaction tracking (`track_transaction`, lines 739-854, and
`prune_old_transactions`, lines 557-563) -/
def MAX_TRANSACTIONS : Nat := 10000

/-- Substring test (Python `"broadcast" in event_type`). -/
def str_contains (hay needle : String) : Bool :=
  (List.range (hay.data.length + 1)).any (fun i => needle.data.isPrefixOf (hay.data.drop i))

/-- The op-kind / start / end / status derivation of `track_transaction`
(lines 751-806). -/
def op_type_of (event_type : String) : String × Bool × Bool × Option String :=
  if py_startswith "put_" event_type then
    ("put", event_type = "put_request", event_type = "put_success",
     if event_type = "put_success" then some "success" else none)
  else if py_startswith "get_" event_type then
    ("get", event_type = "get_request",
     event_type = "get_success" || event_type = "get_not_found",
     if event_type = "get_success" then some "success"
     else if event_type = "get_not_found" then some "not_found" else none)
  else if py_startswith "update_" event_type then
    ("update", event_type = "update_request", event_type = "update_success",
     if event_type = "update_success" then some "success" else none)
  else if py_startswith "subscribe" event_type then
    ("subscribe", event_type = "subscribe_request", event_type = "subscribed",
     if event_type = "subscribed" then some "success" else none)
  else if py_startswith "connect" event_type then
    ("connect", event_type = "connect_request_sent", event_type = "connect_connected",
     if event_type = "connect_connected" then some "success" else none)
  else if event_type = "disconnect" then
    ("disconnect", true, true, some "complete")
  else if str_contains event_type "broadcast" then
    ("broadcast", false, false, none)
  else
    -- `event_type.split("_")[0]`
    (String.mk (event_type.data.takeWhile (fun c => c ≠ '_')), false, false, none)

def TRACKED_TX_OPS : List String := ["put", "get", "update", "broadcast"]

def NULL_TX_ID : String := "00000000000000000000000000"

/-- `prune_old_transactions()`: pop ids from the front of the order while more
than `MAX_TRANSACTIONS` remain, deleting the popped ids from the map. -/
def prune_old_transactions : List String → List (String × Tx) → List String × List (String × Tx)
  | [], txs => ([], txs)
  | h :: t, txs =>
    if (h :: t).length > MAX_TRANSACTIONS then prune_old_transactions t (alist_pop h txs)
    else (h :: t, txs)

/-- In-place update of an existing transaction (lines 828-854). -/
def tx_accrue (display_event_type : String) (timestamp : Int) (peer_id : String)
    (op_type : String) (is_end : Bool) (status : Option String)
    (contract_key : Option String) (tx : Tx) : Tx :=
  let tx := { tx with events := tx.events ++ [⟨timestamp, display_event_type, peer_id⟩] }
  let tx := if op_type ≠ "" && tx.op = "unknown" then { tx with op := op_type } else tx
  let tx := if timestamp < tx.start_ns then { tx with start_ns := timestamp } else tx
  let tx :=
    if is_end then { tx with end_ns := some timestamp, status := status.getD "complete" }
    else if timestamp > tx.end_ns.getD 0 then { tx with end_ns := some timestamp } else tx
  if (sget contract_key) ≠ "" && (sget tx.contract) = "" then
    { tx with contract := contract_key }
  else tx

def track_transaction (tx_id event_type : String) (timestamp : Int) (peer_id : String)
    (contract_key : Option String) (body_type : String)
    (txs : List (String × Tx)) (order : List String) :
    List (String × Tx) × List String :=
  if tx_id = "" || tx_id = NULL_TX_ID then (txs, order)
  else
    let display_event_type := if body_type ≠ "" then body_type else event_type
    let (op_type, is_start, is_end, status) := op_type_of event_type
    if ¬ (op_type ∈ TRACKED_TX_OPS) && alist_get tx_id txs = none then (txs, order)
    else
      let (txs, order) :=
        if alist_get tx_id txs = none then
          let fresh : Tx :=
            { op := if op_type = "" then "unknown" else op_type
              contract := contract_key
              events := []
              start_ns := timestamp
              end_ns := none
              status := if is_start && !is_end then "pending" else "complete" }
          let txs := alist_set tx_id fresh txs
          let (order, txs) := prune_old_transactions (order ++ [tx_id]) txs
          (txs, order)
        else (txs, order)
      -- `tx = transactions[tx_id]` then field mutations; on a corrupt state
      -- where pruning just removed the id Python would raise KeyError, leaving
      -- the post-prune state
      (alist_adjust tx_id
        (tx_accrue display_event_type timestamp peer_id op_type is_end status contract_key)
        txs, order)

/-! ## Derived record values (pure functions of one record) -/

/-- Event-kind resolution (line 874): the `event_type` attribute is
authoritative, the body's `type` is the fallback. -/
def event_type_of (r : Record) : String :=
  if sget r.attrs.event_type ≠ "" then sget r.attrs.event_type else sget r.body.btype

/-- The body's `type` field (line 879). -/
def body_type_of (r : Record) : String := sget r.body.btype

/-- `tx_id = body.get("id") or attrs.get("transaction_id")` (line 883);
falsy results are `""`. -/
def tx_id_of (r : Record) : String :=
  if sget r.body.id ≠ "" then sget r.body.id else sget r.attrs.transaction_id

/-- `contract_key = body.get("contract_key") or body.get("key") or
body.get("instance_id")` (line 892). -/
def contract_key_of (r : Record) : String :=
  if sget r.body.contract_key ≠ "" then sget r.body.contract_key
  else if sget r.body.key ≠ "" then sget r.body.key
  else sget r.body.instance_id

/-- Peer extraction loop (lines 896-907): `event_peer_id` starts from the
`peer_id` attribute, then `this_peer`, `requester`, `target` are probed in
order; the first field that parses supplies the missing id and the ip and
stops the probe. -/
def event_peer_fold (epid : String) : List (Option String) → String × String
  | [] => (epid, "")
  | f :: fs =>
    if sget f ≠ "" then
      match parse_peer_string (sget f) with
      | some ref => (if epid = "" then ref.pid else epid, ref.ip)
      | none => event_peer_fold epid fs
    else event_peer_fold epid fs

def event_peer_of (r : Record) : String × String :=
  event_peer_fold (sget r.attrs.peer_id) [r.body.this_peer, r.body.requester, r.body.target]

/-- `reporting_peer` (lines 1011-1018): the `peer_id` attribute, or the peer id
parsed from `this_peer`. -/
def reporting_peer_of (r : Record) : String :=
  if sget r.attrs.peer_id ≠ "" then sget r.attrs.peer_id
  else match parse_peer_string (sget r.body.this_peer) with
       | some ref => ref.pid
       | none => ""

/-- Seeding branches read the contract key as `body.get("key") or
body.get("contract_key")` (note the order differs from `contract_key_of`). -/
def seed_key_of (r : Record) : String :=
  if sget r.body.key ≠ "" then sget r.body.key else sget r.body.contract_key

/-- `parse_peer_string(body.get("this_peer", ""))` (line 1148). -/
def this_ref_of (r : Record) : Option PeerRef := parse_peer_string (sget r.body.this_peer)

/-- The probe over `connected_peer`, `target`, `requester`, `subscriber`,
`upstream` (lines 1153-1157): fields whose key is absent are skipped, the
first field that parses wins, and a present field that fails to parse leaves
the result empty. -/
def other_probe : List (Option String) → Option PeerRef
  | [] => none
  | none :: fs => other_probe fs
  | some v :: fs =>
    match parse_peer_string v with
    | some ref => some ref
    | none => other_probe fs

def other_ref_of (r : Record) : Option PeerRef :=
  other_probe [r.body.connected_peer, r.body.target, r.body.requester,
               r.body.subscriber, r.body.upstream]

/-- Display peer selection (lines 1304-1312): prefer a public `this_peer`,
else a public other peer. -/
def display_of (r : Record) : Option (String × Rat) :=
  match this_ref_of r with
  | some t =>
    if is_public_ip t.ip then some (t.ip, t.loc)
    else
      match other_ref_of r with
      | some o => if is_public_ip o.ip then some (o.ip, o.loc) else none
      | none => none
  | none =>
    match other_ref_of r with
    | some o => if is_public_ip o.ip then some (o.ip, o.loc) else none
    | none => none

/-! ## Interpreter stages (`process_record`, lines 857-1373) -/

/-- Python `set.add` on an insertion-ordered model of a set of strings. -/
def set_add (x : String) (l : List String) : List String := if x ∈ l then l else l ++ [x]

/-- Python `set.discard` / `-=` of a single element. -/
def set_discard (x : String) (l : List String) : List String := l.filter (fun y => y ≠ x)

/-- Python `list.remove`: drop the first occurrence. -/
def list_remove_first (x : String) : List String → List String
  | [] => []
  | h :: t => if h = x then t else h :: list_remove_first x t

/-- Robust liveness refresh (lines 911-914): any event from a known
`event_peer_id` refreshes that peer's `last_seen`. -/
def refresh_known_peer (epid : String) (ts : Int) (s : ServerState) : ServerState :=
  if epid ≠ "" then
    match alist_get epid s.peer_id_to_ip with
    | some ip =>
      { s with peers := alist_adjust ip (fun d => { d with last_seen := ts }) s.peers }
    | none => s
  else s

/-- Contract-state hash updates (lines 917-930). -/
def contract_hash_stage (r : Record) (s : ServerState) : ServerState :=
  let ck := contract_key_of r
  let (epid, epip) := event_peer_of r
  let et := event_type_of r
  let sh := sget r.body.state_hash
  let sha := sget r.body.state_hash_after
  if ck ≠ "" && epid ≠ "" && (epip = "" || is_public_ip epip) then
    if et = "put_success" && sh ≠ "" then
      update_contract_state ck epid sh r.timestamp et s
    else if et = "get_success" && sh ≠ "" then
      update_contract_state ck epid sh r.timestamp et s
    else if et = "update_success" && sha ≠ "" then
      update_contract_state ck epid sha r.timestamp et s
    else if (et = "broadcast_emitted" || et = "update_broadcast_emitted") && sh ≠ "" then
      update_contract_state ck epid sh r.timestamp et s
    else if et = "update_broadcast_received" && sh ≠ "" then
      update_contract_state ck epid sh r.timestamp et s
    else if et = "update_broadcast_applied" && sha ≠ "" then
      update_contract_state ck epid sha r.timestamp et s
    else s
  else s

/-- `latencies.append(x)` capped to the last 1000 samples. -/
def append_latency (x : Rat) (l : List Rat) : List Rat :=
  let l := l ++ [x]
  if l.length > 1000 then l.drop (l.length - 1000) else l

/-- The operation-statistics `elif` chain (lines 932-981), excluding the
`transfer_completed` branch which is handled by `transfer_stage`. -/
def op_stats_stage (et tx : String) (ts : Int) (s : ServerState) : ServerState :=
  let o := s.op_stats
  if et = "put_request" then
    let s := { s with op_stats := { o with put := { o.put with requests := o.put.requests + 1 } } }
    if tx ≠ "" then { s with pending_ops := alist_set tx ⟨"put", ts⟩ s.pending_ops } else s
  else if et = "put_success" then
    let s := { s with op_stats := { o with put := { o.put with successes := o.put.successes + 1 } } }
    match alist_get tx s.pending_ops with
    | some p =>
      if tx ≠ "" then
        let lat : Rat := ((ts - p.start_ns : Int) : Rat) / 1000000
        let o := s.op_stats
        let s :=
          if 0 < lat && lat < 300000 then
            { s with op_stats := { o with put := { o.put with latencies := append_latency lat o.put.latencies } } }
          else s
        { s with pending_ops := alist_pop tx s.pending_ops }
      else s
    | none => s
  else if et = "get_request" then
    let s := { s with op_stats := { o with get := { o.get with requests := o.get.requests + 1 } } }
    if tx ≠ "" then { s with pending_ops := alist_set tx ⟨"get", ts⟩ s.pending_ops } else s
  else if et = "get_success" then
    let s := { s with op_stats := { o with get := { o.get with successes := o.get.successes + 1 } } }
    match alist_get tx s.pending_ops with
    | some p =>
      if tx ≠ "" then
        let lat : Rat := ((ts - p.start_ns : Int) : Rat) / 1000000
        let o := s.op_stats
        let s :=
          if 0 < lat && lat < 300000 then
            { s with op_stats := { o with get := { o.get with latencies := append_latency lat o.get.latencies } } }
          else s
        { s with pending_ops := alist_pop tx s.pending_ops }
      else s
    | none => s
  else if et = "get_not_found" then
    let s := { s with op_stats := { o with get := { o.get with not_found := o.get.not_found + 1 } } }
    if tx ≠ "" && (alist_get tx s.pending_ops).isSome then
      { s with pending_ops := alist_pop tx s.pending_ops }
    else s
  else if et = "update_request" then
    let s := { s with op_stats := { o with update := { o.update with requests := o.update.requests + 1 } } }
    if tx ≠ "" then { s with pending_ops := alist_set tx ⟨"update", ts⟩ s.pending_ops } else s
  else if et = "update_success" then
    let s := { s with op_stats := { o with update := { o.update with successes := o.update.successes + 1 } } }
    match alist_get tx s.pending_ops with
    | some p =>
      if tx ≠ "" then
        let lat : Rat := ((ts - p.start_ns : Int) : Rat) / 1000000
        let o := s.op_stats
        let s :=
          if 0 < lat && lat < 300000 then
            { s with op_stats := { o with update := { o.update with latencies := append_latency lat o.update.latencies } } }
          else s
        { s with pending_ops := alist_pop tx s.pending_ops }
      else s
    | none => s
  else if et = "update_broadcast_emitted" || et = "broadcast_emitted" then
    { s with op_stats := { o with update := { o.update with broadcasts := o.update.broadcasts + 1 } } }
  else if et = "subscribe_request" then
    { s with op_stats := { o with subscribe := { o.subscribe with requests := o.subscribe.requests + 1 } } }
  else if et = "subscribed" then
    { s with op_stats := { o with subscribe := { o.subscribe with successes := o.subscribe.successes + 1 } } }
  else s

def MAX_TRANSFER_EVENTS : Nat := 1000

/-- The `transfer_completed` branch (lines 984-1006).  On a public peer
address it appends a transfer record and returns early; otherwise the
interpreter continues. -/
def transfer_stage (cfg : HashCfg) (r : Record) (s : ServerState) :
    Option (ServerState × TransferEvent) :=
  let peer_addr := sget r.body.peer_addr
  let peer_ip := if peer_addr ≠ "" then split_colon_head peer_addr else ""
  if peer_ip ≠ "" && is_public_ip peer_ip then
    let te : TransferEvent :=
      { timestamp := r.timestamp
        peer_id := anonymize_ip cfg peer_ip
        direction := (r.body.direction).getD "Send"
        bytes := (r.body.bytes_transferred).getD 0
        elapsed_ms := (r.body.elapsed_ms).getD 0
        throughput_bps := (r.body.avg_throughput_bps).getD 0
        cwnd := (r.body.final_cwnd_bytes).getD 0
        rtt_ms := (r.body.final_srtt_ms).getD 0
        slowdowns := (r.body.slowdowns_triggered).getD 0
        timeouts := (r.body.total_timeouts).getD 0 }
    let evs := s.transfer_events ++ [te]
    let evs := if evs.length > MAX_TRANSFER_EVENTS then evs.drop 1 else evs
    some ({ s with transfer_events := evs }, te)
  else none

/-- Default per-(contract, peer) seeding record created by `get_peer_state`
(lines 1020-1031). -/
def default_seed_state : SeedState :=
  { is_seeding := false, upstream := none, downstream := [], downstream_count := 0 }

/-- Subscription-tree telemetry events (lines 1033-1104). -/
def seeding_stage (r : Record) (s : ServerState) : ServerState :=
  let et := event_type_of r
  let ck := seed_key_of r
  let rp := reporting_peer_of r
  if et = "seeding_started" then
    if ck ≠ "" && rp ≠ "" then
      let inner := (alist_get ck s.seeding_state).getD []
      let st := (alist_get rp inner).getD default_seed_state
      let inner := alist_set rp { st with is_seeding := true } inner
      { s with seeding_state := alist_set ck inner s.seeding_state }
    else s
  else if et = "seeding_stopped" then
    let reason := (r.body.reason).getD "Unknown"
    if ck ≠ "" && rp ≠ "" then
      match alist_get ck s.seeding_state with
      | some inner =>
        if (alist_get rp inner).isSome then
          let inner := alist_adjust rp
            (fun st => { st with is_seeding := false, stopped_reason := some reason }) inner
          { s with seeding_state := alist_set ck inner s.seeding_state }
        else s
      | none => s
    else s
  else if et = "downstream_added" then
    let subscriber := sget r.body.subscriber
    let dc := (r.body.downstream_count).getD 0
    if ck ≠ "" && rp ≠ "" then
      let inner := (alist_get ck s.seeding_state).getD []
      let st := (alist_get rp inner).getD default_seed_state
      let st := { st with downstream_count := dc }
      let st :=
        if subscriber ≠ "" && ¬ (subscriber ∈ st.downstream) then
          { st with downstream := st.downstream ++ [subscriber] }
        else st
      let inner := alist_set rp st inner
      { s with seeding_state := alist_set ck inner s.seeding_state }
    else s
  else if et = "downstream_removed" then
    let subscriber := sget r.body.subscriber
    let dc := (r.body.downstream_count).getD 0
    if ck ≠ "" && rp ≠ "" then
      match alist_get ck s.seeding_state with
      | some inner =>
        if (alist_get rp inner).isSome then
          let inner := alist_adjust rp (fun st =>
            let st := { st with downstream_count := dc }
            if subscriber ≠ "" && subscriber ∈ st.downstream then
              { st with downstream := list_remove_first subscriber st.downstream }
            else st) inner
          { s with seeding_state := alist_set ck inner s.seeding_state }
        else s
      | none => s
    else s
  else if et = "upstream_set" then
    if ck ≠ "" && rp ≠ "" then
      let inner := (alist_get ck s.seeding_state).getD []
      let st := (alist_get rp inner).getD default_seed_state
      let inner := alist_set rp { st with upstream := r.body.upstream } inner
      { s with seeding_state := alist_set ck inner s.seeding_state }
    else s
  else if et = "unsubscribed" then
    let reason := (r.body.reason).getD "Unknown"
    if ck ≠ "" && rp ≠ "" then
      match alist_get ck s.seeding_state with
      | some inner =>
        if (alist_get rp inner).isSome then
          let inner := alist_adjust rp
            (fun st => { st with upstream := none, unsubscribed_reason := some reason }) inner
          { s with seeding_state := alist_set ck inner s.seeding_state }
        else s
      | none => s
    else s
  else if et = "subscription_state" then
    if ck ≠ "" && rp ≠ "" then
      let inner := (alist_get ck s.seeding_state).getD []
      let st : SeedState :=
        { is_seeding := (r.body.is_seeding).getD false
          upstream := r.body.upstream
          downstream := (r.body.downstream).getD []
          downstream_count := (r.body.downstream_count).getD 0 }
      let inner := alist_set rp st inner
      { s with seeding_state := alist_set ck inner s.seeding_state }
    else s
  else s

/-- Peer lifecycle events (lines 1113-1135). -/
def lifecycle_stage (r : Record) (s : ServerState) : ServerState :=
  let et := event_type_of r
  let pid := sget r.attrs.peer_id
  if et = "peer_startup" then
    if pid ≠ "" then
      let lc : Lifecycle :=
        { version := (r.body.version).getD "unknown"
          arch := (r.body.arch).getD "unknown"
          os := (r.body.os).getD "unknown"
          os_version := r.body.os_version
          is_gateway := (r.body.is_gateway).getD false
          startup_time := r.timestamp
          shutdown_time := none
          graceful := none }
      { s with peer_lifecycle := alist_set pid lc s.peer_lifecycle }
    else s
  else if et = "peer_shutdown" then
    if pid ≠ "" && (alist_get pid s.peer_lifecycle).isSome then
      let upd : Lifecycle → Lifecycle := fun lc =>
        { lc with
            shutdown_time := some r.timestamp
            graceful := some ((r.body.graceful).getD false)
            shutdown_reason := r.body.reason }
      { s with peer_lifecycle := alist_adjust pid upd s.peer_lifecycle }
    else s
  else s

/-- Address-field liveness refresh (lines 1160-1165). -/
def addr_refresh_one (ts : Int) (s : ServerState) (f : Option String) : ServerState :=
  let addr := sget f
  if addr ≠ "" && py_has_char addr ':' then
    let ip := split_colon_head addr
    if ip ≠ "" && is_public_ip ip && (alist_get ip s.peers).isSome then
      { s with peers := alist_adjust ip (fun d => { d with last_seen := ts }) s.peers }
    else s
  else s

def addr_refresh_stage (r : Record) (ts : Int) (s : ServerState) : ServerState :=
  [r.body.from_addr, r.body.to_addr, r.body.peer_addr, r.body.this_peer_addr,
   r.body.from_peer_addr, r.body.connected_peer_addr].foldl (addr_refresh_one ts) s

/-- `attrs_peer_id -> IP` tracking (lines 1169-1180): set from a public
`this_peer` parse, then possibly overwritten by the first public address among
`this_peer_addr`, `from_peer_addr`. -/
def attrs_map_addr_loop (apid : String) (s : ServerState) : List (Option String) → ServerState
  | [] => s
  | f :: fs =>
    let addr := sget f
    if addr ≠ "" && py_has_char addr ':' then
      let addr_ip := split_colon_head addr
      if is_public_ip addr_ip then
        { s with attrs_peer_id_to_ip := alist_set apid addr_ip s.attrs_peer_id_to_ip }
      else attrs_map_addr_loop apid s fs
    else attrs_map_addr_loop apid s fs

def attrs_map_stage (r : Record) (s : ServerState) : ServerState :=
  let apid := sget r.attrs.peer_id
  if apid ≠ "" then
    let s :=
      match this_ref_of r with
      | some t =>
        if is_public_ip t.ip then
          { s with attrs_peer_id_to_ip := alist_set apid t.ip s.attrs_peer_id_to_ip }
        else s
      | none => s
    attrs_map_addr_loop apid s [r.body.this_peer_addr, r.body.from_peer_addr]
  else s

/-- `cleanup_stale_peer_id(old_peer_id)` (lines 512-533): purge the old
identity from `seeding_state` and `contract_states`, dropping contracts that
become (or already were) empty. -/
def cleanup_stale_peer_id (old_peer_id : String) (s : ServerState) : ServerState :=
  let seeds := (s.seeding_state.map (fun p => (p.1, alist_pop old_peer_id p.2))).filter
    (fun p => ¬ p.2.isEmpty)
  let cstates := (s.contract_states.map (fun p => (p.1, alist_pop old_peer_id p.2))).filter
    (fun p => ¬ p.2.isEmpty)
  { s with seeding_state := seeds, contract_states := cstates }

/-- One iteration of the peer-state update loop (lines 1184-1229), for a
parsed `(ip, loc)` and the peer id attached to that slot (the `peer_id`
attribute for `this_peer`, the parsed id for the other peer). -/
def update_peer_entry (cfg : HashCfg) (ref : Option (String × Rat)) (pid : String) (ts : Int)
    (s : ServerState) : ServerState :=
  match ref with
  | none => s
  | some (ip, loc) =>
    -- line 1186: refresh last_seen for known public peers even without location
    let s :=
      if is_public_ip ip && (alist_get ip s.peers).isSome then
        { s with peers := alist_adjust ip (fun d => { d with last_seen := ts }) s.peers }
      else s
    -- line 1188: create or update (a successful parse always carries a location)
    if is_public_ip ip then
      let s :=
        match alist_get ip s.peers with
        | none =>
          let d : PeerData :=
            { id := anonymize_ip cfg ip
              ip_hash := ip_hash cfg ip
              location := loc
              last_seen := ts
              connections := []
              peer_id := pid }
          let s := { s with peers := alist_set ip d s.peers }
          if pid ≠ "" then
            let s := { s with ip_to_peer_id := alist_set ip pid s.ip_to_peer_id }
            { s with peer_id_to_ip := alist_set pid ip s.peer_id_to_ip }
          else s
        | some _ =>
          let upd : PeerData → PeerData := fun d => { d with location := loc, last_seen := ts }
          let s := { s with peers := alist_adjust ip upd s.peers }
          if pid ≠ "" then
            let old := sget (alist_get ip s.ip_to_peer_id)
            let s :=
              if old ≠ "" && old ≠ pid then
                let s := cleanup_stale_peer_id old s
                { s with peer_id_to_ip := alist_pop old s.peer_id_to_ip }
              else s
            let s := { s with peers := alist_adjust ip (fun d => { d with peer_id := pid }) s.peers }
            let s := { s with ip_to_peer_id := alist_set ip pid s.ip_to_peer_id }
            { s with peer_id_to_ip := alist_set pid ip s.peer_id_to_ip }
          else s
      -- peer presence (lines 1219-1229)
      match alist_get ip s.peer_presence with
      | none =>
        let pres : Presence := ⟨anonymize_ip cfg ip, ip_hash cfg ip, loc, ts, pid⟩
        { s with peer_presence := alist_set ip pres s.peer_presence }
      | some pres =>
        if pid ≠ "" && pres.peer_id = "" then
          let upd : Presence → Presence := fun p => { p with peer_id := pid }
          { s with peer_presence := alist_adjust ip upd s.peer_presence }
        else s
    else s

def update_peers_stage (cfg : HashCfg) (r : Record) (s : ServerState) : ServerState :=
  let s := update_peer_entry cfg ((this_ref_of r).map (fun t => (t.ip, t.loc)))
    (sget r.attrs.peer_id) r.timestamp s
  update_peer_entry cfg ((other_ref_of r).map (fun t => (t.ip, t.loc)))
    (((other_ref_of r).map PeerRef.pid).getD "") r.timestamp s

/-- Connection tracking (lines 1232-1260): `connect`-family inserts an
undirected edge, `disconnect` removes the edge named by the emitter and
`from_peer_addr`.  Returns the state plus the `connection` / `disconnection`
side-band values. -/
def connection_stage (cfg : HashCfg) (r : Record) (s : ServerState) :
    ServerState × Option (String × String) × Option (String × String) :=
  let et := event_type_of r
  if et = "connect" || et = "connected" || et = "connect_connected" then
    match this_ref_of r, other_ref_of r with
    | some t, some o =>
      if is_public_ip t.ip && is_public_ip o.ip then
        let conn := mk_conn t.ip o.ip
        if conn ∈ s.connections then (s, none, none)
        else
          let s := { s with connections := s.connections ++ [conn] }
          let add1 : PeerData → PeerData := fun d => { d with connections := set_add o.ip d.connections }
          let s :=
            if (alist_get t.ip s.peers).isSome then
              { s with peers := alist_adjust t.ip add1 s.peers }
            else s
          let add2 : PeerData → PeerData := fun d => { d with connections := set_add t.ip d.connections }
          let s :=
            if (alist_get o.ip s.peers).isSome then
              { s with peers := alist_adjust o.ip add2 s.peers }
            else s
          (s, some (anonymize_ip cfg t.ip, anonymize_ip cfg o.ip), none)
      else (s, none, none)
    | _, _ => (s, none, none)
  else if et = "disconnect" then
    let fpa := sget r.body.from_peer_addr
    if fpa ≠ "" && py_has_char fpa ':' then
      let dip := split_colon_head fpa
      match this_ref_of r with
      | some t =>
        if dip ≠ "" && is_public_ip t.ip && is_public_ip dip then
          let conn := mk_conn t.ip dip
          if conn ∈ s.connections then
            let s := { s with connections := s.connections.filter (fun c => c ≠ conn) }
            let del1 : PeerData → PeerData := fun d => { d with connections := set_discard dip d.connections }
            let s :=
              if (alist_get t.ip s.peers).isSome then
                { s with peers := alist_adjust t.ip del1 s.peers }
              else s
            let del2 : PeerData → PeerData := fun d => { d with connections := set_discard t.ip d.connections }
            let s :=
              if (alist_get dip s.peers).isSome then
                { s with peers := alist_adjust dip del2 s.peers }
              else s
            (s, none, some (anonymize_ip cfg t.ip, anonymize_ip cfg dip))
          else (s, none, none)
        else (s, none, none)
      | none => (s, none, none)
    else (s, none, none)
  else (s, none, none)

/-- Subscription-tree accrual (lines 1263-1302). -/
def subscription_stage (cfg : HashCfg) (r : Record) (s : ServerState) : ServerState :=
  let ck := contract_key_of r
  if ck = "" then s
  else
    let sub := (alist_get ck s.subscriptions).getD ⟨[], []⟩
    let et := event_type_of r
    let bt := body_type_of r
    let sub :=
      if et = "subscribed" || et = "subscribe_success" then
        let sip :=
          match this_ref_of r with
          | some t => t.ip
          | none => (event_peer_of r).2
        if sip ≠ "" && is_public_ip sip then
          { sub with subscribers := set_add (anonymize_ip cfg sip) sub.subscribers }
        else sub
      else sub
    let sub :=
      if et = "broadcast_emitted" || et = "update_broadcast_emitted"
          || et = "update_broadcast_received" || et = "update_broadcast_applied"
          || bt = "broadcast_emitted" then
        match parse_peer_string (sget r.body.sender) with
        | some sref =>
          if is_public_ip sref.ip then
            let sender_id := anonymize_ip cfg sref.ip
            let tree :=
              if (alist_get sender_id sub.tree).isSome then sub.tree
              else alist_set sender_id [] sub.tree
            let acc := ((r.body.broadcast_to).getD []).foldl
              (fun (acc : List (String × List String) × List String) tstr =>
                match parse_peer_string tstr with
                | some tref =>
                  if is_public_ip tref.ip then
                    let tid := anonymize_ip cfg tref.ip
                    (alist_adjust sender_id (set_add tid) acc.1, set_add tid acc.2)
                  else acc
                | none => acc) (tree, sub.subscribers)
            { sub with tree := acc.1, subscribers := acc.2 }
          else sub
        | none => sub
      else sub
    { s with subscriptions := alist_set ck sub s.subscriptions }

/-- Event construction plus transaction accrual (lines 1317-1373).  Returns
the updated state and the outbound event.  The event's `time_str` field
(line 1327) is a pure presentation string and is not carried in the model;
the `datetime.fromtimestamp` call that computes it can raise on an
out-of-range timestamp *before* `track_transaction` runs — that raise is
modelled by `record_raises`/`record_aborts_line` in the tailer section, and
the theorems about completed processing assume it does not fire. -/
def event_build_stage (cfg : HashCfg) (r : Record)
    (connAdd connRem : Option (String × String)) (dip : String) (dloc : Rat)
    (s : ServerState) : ServerState × Event :=
  let et := event_type_of r
  let bt := body_type_of r
  let ck := contract_key_of r
  let tx := tx_id_of r
  let ev : Event :=
    { timestamp := r.timestamp
      event_type := if et = "connect" && bt ≠ "" then bt else et
      peer_id := anonymize_ip cfg dip
      peer_ip_hash := ip_hash cfg dip
      location := some dloc
      from_peer := (this_ref_of r).bind (fun t => if is_public_ip t.ip then some (anonymize_ip cfg t.ip) else none)
      from_location := (this_ref_of r).bind (fun t => if is_public_ip t.ip then some t.loc else none)
      to_peer := (other_ref_of r).bind (fun o => if is_public_ip o.ip then some (anonymize_ip cfg o.ip) else none)
      to_location := (other_ref_of r).bind (fun o => if is_public_ip o.ip then some o.loc else none)
      connection := connAdd
      disconnection := connRem
      contract := if ck ≠ "" then some ((py_take ck 12) ++ "...") else none
      contract_full := if ck ≠ "" then some ck else none
      state_hash := if sget r.body.state_hash ≠ "" then r.body.state_hash else none
      state_hash_before := if sget r.body.state_hash_before ≠ "" then r.body.state_hash_before else none
      state_hash_after := if sget r.body.state_hash_after ≠ "" then r.body.state_hash_after else none
      tx_id := if tx ≠ "" && tx ≠ NULL_TX_ID then some tx else none }
  if tx ≠ "" && tx ≠ NULL_TX_ID then
    let pr := track_transaction tx et r.timestamp ev.peer_id
      (if ck ≠ "" then some ck else none) bt s.transactions s.transaction_order
    ({ s with transactions := pr.1, transaction_order := pr.2 }, ev)
  else (s, ev)

/-- `process_record(record)` (lines 857-1373): the full interpreter pipeline
in source order.  The event-history append (gated by `store_history`), which
no model component reads, is not part of the state. -/
def process_record (cfg : HashCfg) (r : Record) (s : ServerState) :
    ServerState × Option OutMsg :=
  let et := event_type_of r
  if et = "" then (s, none)
  else
    let s := refresh_known_peer (event_peer_of r).1 r.timestamp s
    let s := contract_hash_stage r s
    let s := op_stats_stage et (tx_id_of r) r.timestamp s
    match (if et = "transfer_completed" then transfer_stage cfg r s else none) with
    | some (s, te) => (s, some (OutMsg.transfer te))
    | none =>
      let s := seeding_stage r s
      let s := lifecycle_stage r s
      let s := addr_refresh_stage r r.timestamp s
      let s := attrs_map_stage r s
      let s := update_peers_stage cfg r s
      let step := connection_stage cfg r s
      let s := subscription_stage cfg r step.1
      match display_of r with
      | none => (s, none)
      | some (dip, dloc) =>
        let pr := event_build_stage cfg r step.2.1 step.2.2 dip dloc s
        (pr.1, some (OutMsg.ev pr.2))

/-! ## Stale-data cleanup (lines 566-737) -/
def STALE_PEER_THRESHOLD_NS : Int := 30 * 60 * 1000000000

def STALE_PENDING_OP_NS : Int := 5 * 60 * 1000000000

def STALE_PROPAGATION_NS : Int := 2 * 60 * 60 * 1000000000

/-- Step 1 of `cleanup_stale_peers`: IPs whose `last_seen` is older than the
30-minute threshold at sweep time. -/
def stale_ips_of (s : ServerState) (now_ns : Int) : List String :=
  (s.peers.filter (fun p => p.2.last_seen < now_ns - STALE_PEER_THRESHOLD_NS)).map Prod.fst

/-- Steps 2 and 5: the identities the sweep collects for the stale IPs — the
stale IP's current `ip_to_peer_id` entry, the stale peer record's `peer_id`
field, and every `attrs_peer_id_to_ip` key mapped to a stale IP. -/
def stale_peer_ids_of (s : ServerState) (now_ns : Int) : List String :=
  let sips := stale_ips_of s now_ns
  (sips.filterMap (fun ip =>
      let pid := sget (alist_get ip s.ip_to_peer_id)
      if pid ≠ "" then some pid else none))
  ++ (sips.filterMap (fun ip =>
      match alist_get ip s.peers with
      | some d => if d.peer_id ≠ "" then some d.peer_id else none
      | none => none))
  ++ (s.attrs_peer_id_to_ip.filterMap (fun p => if p.2 ∈ sips then some p.1 else none))

/-- Neighbor-set repair on a surviving endpoint of a removed connection
(lines 645-647). -/
def repair_neighbor (sips : List String) (ip : String) (peers : List (String × PeerData)) :
    List (String × PeerData) :=
  if ip ∈ sips then peers
  else alist_adjust ip (fun d => { d with connections := d.connections.filter (fun n => ¬ n ∈ sips) }) peers

set_option maxHeartbeats 1000000 in
/-- `cleanup_stale_peers()` (lines 572-693).  Returns the new state, the
removed `(anon_id, ip)` pairs, the removed anonymised connection pairs, and
the collected stale identities. -/
def cleanup_stale_peers (cfg : HashCfg) (now_ns : Int) (s : ServerState) :
    ServerState × List (String × String) × List (String × String) × List String :=
  let sips := stale_ips_of s now_ns
  if sips.isEmpty then (s, [], [], [])
  else
    let spids := stale_peer_ids_of s now_ns
    let sanons := sips.map (anonymize_ip cfg)
    -- 3. remove from peers
    let removed_peers := sips.filterMap (fun ip => (alist_get ip s.peers).map (fun d => (d.id, ip)))
    let peers1 := sips.foldl (fun acc ip => alist_pop ip acc) s.peers
    -- 4. remove from the IP <-> peer_id maps
    let ipmap1 := sips.foldl (fun acc ip => alist_pop ip acc) s.ip_to_peer_id
    let pidmap1 := sips.foldl (fun acc ip =>
      let pid := sget (alist_get ip s.ip_to_peer_id)
      if pid ≠ "" then alist_pop pid acc else acc) s.peer_id_to_ip
    -- 5. remove attrs identities mapped to stale IPs
    let attrs1 := s.attrs_peer_id_to_ip.filter (fun p => ¬ p.2 ∈ sips)
    -- 6. remove from peer_presence
    let pres1 := sips.foldl (fun acc ip => alist_pop ip acc) s.peer_presence
    -- 7. remove from peer_lifecycle
    let life1 := spids.foldl (fun acc pid => alist_pop pid acc) s.peer_lifecycle
    -- 8. remove connections touching stale peers, repairing survivors
    let stale_conns := s.connections.filter (fun c => conn_touches c sips)
    let conns1 := s.connections.filter (fun c => ¬ conn_touches c sips)
    let removed_connections := stale_conns.filterMap (fun c =>
      if c.1 ≠ c.2 then some (anonymize_ip cfg c.1, anonymize_ip cfg c.2) else none)
    let peers2 := stale_conns.foldl (fun acc c =>
      if c.1 ≠ c.2 then repair_neighbor sips c.2 (repair_neighbor sips c.1 acc) else acc) peers1
    -- 9. seeding_state
    let seeds1 := (s.seeding_state.map (fun p =>
      (p.1, p.2.filter (fun q => ¬ q.1 ∈ spids)))).filter (fun p => ¬ p.2.isEmpty)
    -- 10. contract_states
    let cstates1 := (s.contract_states.map (fun p =>
      (p.1, p.2.filter (fun q => ¬ q.1 ∈ spids)))).filter (fun p => ¬ p.2.isEmpty)
    -- 11. subscriptions
    let subs1 := (s.subscriptions.map (fun p =>
      let subscribers := p.2.subscribers.filter (fun a => ¬ a ∈ sanons)
      let tree := p.2.tree.filterMap (fun q =>
        if q.1 ∈ sanons then none
        else
          let tgts := q.2.filter (fun a => ¬ a ∈ sanons)
          if tgts.isEmpty then none else some (q.1, tgts))
      (p.1, SubData.mk subscribers tree))).filter
      (fun p => ¬ (p.2.subscribers.isEmpty && p.2.tree.isEmpty))
    -- 12. contract_propagation peer lists
    let props1 := (s.contract_propagation.map (fun p =>
      (p.1, { p.2 with peers := p.2.peers.filter (fun q => ¬ q.1 ∈ spids) }))).filter
      (fun p => ¬ (p.2.peers.isEmpty && p.2.current_hash.isSome))
    ({ s with
        peers := peers2
        connections := conns1
        ip_to_peer_id := ipmap1
        peer_id_to_ip := pidmap1
        attrs_peer_id_to_ip := attrs1
        peer_presence := pres1
        peer_lifecycle := life1
        seeding_state := seeds1
        contract_states := cstates1
        subscriptions := subs1
        contract_propagation := props1 },
     removed_peers, removed_connections, spids)

/-- `cleanup_stale_pending_ops()` (lines 696-713). -/
def cleanup_stale_pending_ops (now_ns : Int) (s : ServerState) : ServerState :=
  let kept := s.pending_ops.filter (fun p => ¬ (p.2.start_ns < now_ns - STALE_PENDING_OP_NS))
  { s with pending_ops := kept }

/-- `cleanup_stale_propagation()` (lines 716-736). -/
def cleanup_stale_propagation (now_ns : Int) (s : ServerState) : ServerState :=
  let kept := s.contract_propagation.filter (fun p =>
    let fs := p.2.first_seen.getD 0
    let ls := p.2.last_seen.getD fs
    ¬ (ls < now_ns - STALE_PROPAGATION_NS))
  { s with contract_propagation := kept }

/-! ## Reachable states: interleavings of interpreter calls and cleanup
sweeps (the two mutators of the network model; `periodic_cleanup`,
lines 1756-1792, runs the three cleanups in order). -/
inductive Step where
  | interp (r : Record)
  | sweep (now_ns : Int)
deriving Repr

def apply_step (cfg : HashCfg) (s : ServerState) : Step → ServerState
  | Step.interp r => (process_record cfg r s).1
  | Step.sweep n =>
    cleanup_stale_propagation n (cleanup_stale_pending_ops n (cleanup_stale_peers cfg n s).1)

def run_steps (cfg : HashCfg) (steps : List Step) : ServerState :=
  steps.foldl (apply_step cfg) init_state

/-! ## `get_operation_stats` (lines 1376-1420) -/

/-- Python `round(x, 1)` as exact rational rounding (half-to-even at one
decimal place). -/
def py_round1 (q : Rat) : Rat :=
  let s := q * 10
  let n : Int := Int.floor s
  let f := s - n
  let r : Int :=
    if f < 1/2 then n
    else if 1/2 < f then n + 1
    else if n % 2 = 0 then n else n + 1
  (r : Rat) / 10

def insert_rat (x : Rat) : List Rat → List Rat
  | [] => [x]
  | h :: t => if x ≤ h then x :: h :: t else h :: insert_rat x t

/-- Python `sorted` on latency samples (ascending). -/
def sort_rats (l : List Rat) : List Rat := l.foldr insert_rat []

structure Percentiles where
  p50 : Option Rat
  p95 : Option Rat
  p99 : Option Rat
deriving DecidableEq, Repr

/-- `calc_percentiles` (lines 1378-1387); the float index `int(n * q)` is the
exact rational floor for these quantiles. -/
def calc_percentiles (latencies : List Rat) : Percentiles :=
  let sorted := sort_rats latencies
  let n := latencies.length
  { p50 := if n > 0 then sorted.get? (n * 50 / 100) else none
    p95 := if n > 1 then sorted.get? (n * 95 / 100) else none
    p99 := if n > 2 then sorted.get? (n * 99 / 100) else none }

/-- `calc_rate` (lines 1389-1392). -/
def calc_rate (successes requests : Nat) : Option Rat :=
  if requests = 0 then none
  else some (py_round1 ((successes : Rat) / (requests : Rat) * 100))

structure PutView where
  total : Nat
  success_rate : Option Rat
  latency : Percentiles
deriving DecidableEq, Repr

structure GetView where
  total : Nat
  success_rate : Option Rat
  not_found : Nat
  latency : Percentiles
deriving DecidableEq, Repr

structure UpdateView where
  total : Nat
  success_rate : Option Rat
  broadcasts : Nat
  latency : Percentiles
deriving DecidableEq, Repr

structure SubscribeView where
  total : Nat
deriving DecidableEq, Repr

structure OpStatsSnapshot where
  put : PutView
  get : GetView
  update : UpdateView
  subscribe : SubscribeView
deriving DecidableEq, Repr

/-- `get_operation_stats()` (lines 1394-1420). -/
def get_operation_stats (s : ServerState) : OpStatsSnapshot :=
  let put := s.op_stats.put
  let get := s.op_stats.get
  let update := s.op_stats.update
  let subscribe := s.op_stats.subscribe
  { put :=
      { total := put.requests
        success_rate := calc_rate put.successes put.requests
        latency := calc_percentiles put.latencies }
    get :=
      { total := get.requests + get.successes  -- get_success without get_request
        success_rate :=
          if get.successes + get.not_found > 0 then
            calc_rate get.successes (get.successes + get.not_found)
          else none
        not_found := get.not_found
        latency := calc_percentiles get.latencies }
    update :=
      { total := update.requests
        success_rate := calc_rate update.successes update.requests
        broadcasts := update.broadcasts
        latency := calc_percentiles update.latencies }
    subscribe := { total := subscribe.successes } }

/-! ## Per-client bounded send queue (`ClientHandler`, lines 226-328) -/
def CLIENT_QUEUE_MAX : Nat := 100

/-- The queue-relevant session state: the bounded queue (front = oldest), the
drop counter, and the closed flag. -/
structure ClientHandler where
  queue : List String := []
  dropped_count : Nat := 0
  closed : Bool := false
deriving DecidableEq, Repr

/-- `ClientHandler.enqueue` (lines 268-287): non-blocking; when the queue is
full the oldest message is discarded before the new one is inserted and the
drop counter is incremented. -/
def ClientHandler.enqueue (h : ClientHandler) (msg : String) : ClientHandler :=
  if h.closed then h
  else if h.queue.length < CLIENT_QUEUE_MAX then { h with queue := h.queue ++ [msg] }
  else { h with queue := h.queue.tail ++ [msg], dropped_count := h.dropped_count + 1 }

/-- Enqueue a sequence of messages while the sender task never runs. -/
def enqueue_all (h : ClientHandler) (msgs : List String) : ClientHandler :=
  msgs.foldl ClientHandler.enqueue h

/-! ## Peer-name store, rate limiter and moderator (lines 52-174, 1946-1996)

`time.time()` seconds are modelled as `Int`; the classifier (an external
OpenAI call, lines 129-174) is a parameter returning either a response string
or an exception. -/
def NAME_CHANGE_LIMIT : Nat := 5

def NAME_CHANGE_WINDOW : Int := 3600

structure NamesState where
  peer_names : List (String × String) := []
  name_change_timestamps : List (String × List Int) := []
deriving DecidableEq, Repr

def min_list (l : List Int) : Int :=
  match l with
  | [] => 0
  | h :: t => t.foldl min h

/-- `check_rate_limit(ip_hash)` (lines 61-78): prune the hash's timestamps to
the rolling window, allow if fewer than the limit survive, otherwise report
the wait until the oldest surviving stamp leaves the window. -/
def check_rate_limit (ip_hash_str : String) (now : Int) (st : NamesState) :
    Bool × Int × NamesState :=
  match alist_get ip_hash_str st.name_change_timestamps with
  | none => (true, 0, st)
  | some ts =>
    let recent := ts.filter (fun t => now - t < NAME_CHANGE_WINDOW)
    let pruned := alist_set ip_hash_str recent st.name_change_timestamps
    let st := { st with name_change_timestamps := pruned }
    if recent.length < NAME_CHANGE_LIMIT then (true, 0, st)
    else (false, NAME_CHANGE_WINDOW - (now - min_list recent) + 1, st)

/-- `record_name_change(ip_hash)` (lines 81-86). -/
def record_name_change (ip_hash_str : String) (now : Int) (st : NamesState) : NamesState :=
  let cur := (alist_get ip_hash_str st.name_change_timestamps).getD []
  let stamps := alist_set ip_hash_str (cur ++ [now]) st.name_change_timestamps
  { st with name_change_timestamps := stamps }

/-- The local fallback filter `re.sub(r'[^\w\s\-_.!/]', '', name)[:20]`. -/
def basic_filter (name : String) : String :=
  String.mk ((name.data.filter (fun c => is_word_char c || c.isWhitespace || is_name_punct c)).take 20)

/-- `llm_response.split(":", 1)[1].strip()` when a colon is present, else
`"inappropriate"` (lines 162-164). -/
def reject_reason_of (resp : String) : String :=
  match after_char ':' resp.data with
  | some rest => py_strip (String.mk rest)
  | none => "inappropriate"

/-- `sanitize_name(name)` (lines 109-174).  The classifier argument is `none`
when OpenAI is unavailable; `Except.error` models an exception during the
external call (which falls back to the local filter). -/
def sanitize_name (classify : Option (String → Except Unit String)) (name : String) :
    Option String × Option String :=
  if name = "" || name.length > 30 then
    ((if name = "" then none else some (py_take name 30)),
     some (if name = "" then "Empty name" else "Name too long"))
  else
    let name := py_strip name
    if name = "" then (none, some "Empty name")
    else
      match classify with
      | none => (some (basic_filter name), none)
      | some f =>
        match f name with
        | Except.error _ => (some (basic_filter name), none)
        | Except.ok resp =>
          let r := py_lower (py_strip resp)
          if py_startswith "reject" r then (none, some (reject_reason_of r))
          else (some (py_take name 20), none)

structure NameSetResult where
  success : Bool
  name : Option String := none
  error : Option String := none
deriving DecidableEq, Repr

def REJECTION_MESSAGES : List (String × String) :=
  [("political", "Political slogans and advocacy aren't allowed — use a nickname instead"),
   ("offensive", "That name contains offensive content"),
   ("religious", "Religious proclamations aren't allowed — use a nickname instead")]

/-- The `set_peer_name` control-message branch of `handle_client`
(lines 1946-1996).  Returns the updated name state, the `name_set_result`
replies sent directly to the session, and the `(ip_hash, name)`
`peer_name_update` broadcasts sent to every session.  Persisting the map to
disk (`save_peer_names`) writes exactly the returned `peer_names`. -/
def handle_set_peer_name (classify : Option (String → Except Unit String))
    (client_ip_hash : String) (name_field : Option String) (now : Int) (st : NamesState) :
    NamesState × List NameSetResult × List (String × String) :=
  let name := py_strip (name_field.getD "")
  if client_ip_hash ≠ "" && name ≠ "" then
    let c := check_rate_limit client_ip_hash now st
    let st := c.2.2
    if ¬ c.1 then
      (st, [⟨false, none,
        some ("Too many changes. Try again in " ++ toString (c.2.1 / 60) ++ " min")⟩], [])
    else
      let res := sanitize_name classify name
      if sget res.1 ≠ "" then
        let sanitized := sget res.1
        let st := { st with peer_names := alist_set client_ip_hash sanitized st.peer_names }
        let st := record_name_change client_ip_hash now st
        (st, [⟨true, some sanitized, none⟩], [(client_ip_hash, sanitized)])
      else
        let reason := (res.2).getD "None"
        let err := (alist_get reason REJECTION_MESSAGES).getD ("Name not allowed: " ++ reason)
        (st, [⟨false, none, some err⟩], [])
  else if client_ip_hash = "" then
    (st, [⟨false, none, some "Cannot identify your peer"⟩], [])
  else
    (st, [], [])

/-! ## The log tailer's per-line dispatch (`tail_log`, lines 1795-1842)

A line either fails JSON parsing (`none`: logged and skipped) or is an
envelope `{resourceLogs: [{scopeLogs: [{logRecords: [...]}]}]}`.  The records
of a line are handed to `process_record` in nested iteration order inside one
`try` block, so an exception raised while processing one record abandons the
remaining records of that line; the tail loop then continues with the next
line.  The exceptions a record of the embedded record language can raise, in
stage order, are: `int(record["timeUnixNano"])` on a non-numeric string
(line 863, before any state mutation); `float(...)` inside
`parse_peer_string` on a peer field whose leftmost regex match carries a
multi-dot location text (raised from the probe loop of lines 896-907, the
other-peer probe of lines 1153-1157, or the sender/target parses of
lines 1290/1298); and `datetime.fromtimestamp(timestamp / 1e9)` (line 1327)
on an out-of-range timestamp, reached only when a display peer was found.  A
fourth way a record kills the rest of its line raises *outside*
`process_record`: a `transfer_completed` record with a public `peer_addr`
early-returns a transfer dict with no `"event_type"` key (line 1006), and the
tailer's `event["event_type"]` lookup (line 1837) then raises `KeyError`
inside the same per-line `try`. -/
structure RawRecord where
  timeUnixNano : String := "0"
  attrs : Attrs := {}
  body : Body := {}
deriving DecidableEq, Repr

/-- Digits to a natural number. -/
def digits_to_nat (cs : List Char) : Nat := cs.foldl (fun n c => n * 10 + (c.toNat - 48)) 0

/-- `int(timestamp_raw)` for string input: optional surrounding whitespace, an
optional sign, then digits; anything else is a `ValueError`. -/
def parse_time (sv : String) : Option Int :=
  let cs := ((sv.data.dropWhile Char.isWhitespace).reverse.dropWhile Char.isWhitespace).reverse
  match cs with
  | [] => none
  | '-' :: rest =>
    if rest ≠ [] && rest.all Char.isDigit then some (-(digits_to_nat rest : Int)) else none
  | '+' :: rest =>
    if rest ≠ [] && rest.all Char.isDigit then some ((digits_to_nat rest : Int)) else none
  | _ => if cs.all Char.isDigit then some ((digits_to_nat cs : Int)) else none

/-- Like `match_peer_at`, but returning the raw text of the location group
(group 4 of the regex) without attempting the `float(...)` conversion: the
regex engine finds its match before `float` is applied, so whether the match
at a position exists is independent of whether its location text is
convertible. -/
def match_peer_loc (cs : List Char) : Option (List Char) := do
  let w := cs.takeWhile is_word_char
  if w = [] then none else
  let cs := cs.drop w.length
  match cs with
  | '@' :: cs => do
    let (_, cs) ← take_digits cs
    match cs with
    | '.' :: cs => do
      let (_, cs) ← take_digits cs
      match cs with
      | '.' :: cs => do
        let (_, cs) ← take_digits cs
        match cs with
        | '.' :: cs => do
          let (_, cs) ← take_digits cs
          match cs with
          | ':' :: cs => do
            let (_, cs) ← take_digits cs
            let cs := cs.dropWhile Char.isWhitespace
            match cs with
            | '(' :: '@' :: cs =>
              let cs := cs.dropWhile Char.isWhitespace
              let locCs := cs.takeWhile (fun c => c.isDigit || c = '.')
              if locCs = [] then none else
              match cs.drop locCs.length with
              | ')' :: _ => some locCs
              | _ => none
            | _ => none
          | _ => none
        | _ => none
      | _ => none
    | _ => none
  | _ => none

/-- The location text of the *leftmost* position at which the peer pattern
matches (`re.search` semantics, before `float` is consulted). -/
def search_peer_loc : List Char → Option (List Char)
  | [] => none
  | c :: cs =>
    match match_peer_loc (c :: cs) with
    | some l => some l
    | none => search_peer_loc cs

/-- Whether `parse_peer_string(s)` raises `ValueError` (line 544): the regex
finds a leftmost match and `float` rejects its location text (more than one
dot, or no digits).  An empty string returns early (line 538) and never
reaches the regex. -/
def peer_string_raises (s : String) : Bool :=
  if s = "" then false
  else match search_peer_loc s.data with
       | some locCs => (parse_loc locCs).isNone
       | none => false

/-- Whether the peer probe loop of lines 896-907 raises: truthy fields are
parsed in order and the loop breaks at the first successful parse, so a
raising field aborts iff no earlier field parsed successfully. -/
def event_peer_raises : List (Option String) → Bool
  | [] => false
  | f :: fs =>
    if sget f ≠ "" then
      if peer_string_raises (sget f) then true
      else match parse_peer_string (sget f) with
           | some _ => false
           | none => event_peer_raises fs
    else event_peer_raises fs

/-- Whether the other-peer probe of lines 1153-1157 raises: fields whose key
is present are parsed in order (truthiness is not checked — an empty present
field parses to the `None` triple without raising) and the loop breaks at the
first successful parse. -/
def other_probe_raises : List (Option String) → Bool
  | [] => false
  | none :: fs => other_probe_raises fs
  | some v :: fs =>
    if peer_string_raises v then true
    else match parse_peer_string v with
         | some _ => false
         | none => other_probe_raises fs

/-- Whether the subscription-tracking block of lines 1262-1302 raises: under a
truthy contract key and a broadcast-family event, the `sender` field is parsed
(line 1290), and when the sender is public every entry of `broadcast_to` is
parsed with no break (line 1298). -/
def subscription_raises (r : Record) : Bool :=
  let et := event_type_of r
  let bt := body_type_of r
  if contract_key_of r ≠ "" &&
      (et = "broadcast_emitted" || et = "update_broadcast_emitted"
        || et = "update_broadcast_received" || et = "update_broadcast_applied"
        || bt = "broadcast_emitted") then
    if peer_string_raises (sget r.body.sender) then true
    else match parse_peer_string (sget r.body.sender) with
         | some sref =>
           if is_public_ip sref.ip then
             ((r.body.broadcast_to).getD []).any peer_string_raises
           else false
         | none => false
  else false

/-- Whether the `transfer_completed` branch (lines 984-1006) fires and
early-returns the transfer dict: a truthy `peer_addr` whose colon-head is a
public IP. -/
def transfer_fires (r : Record) : Bool :=
  let peer_addr := sget r.body.peer_addr
  let peer_ip := if peer_addr ≠ "" then split_colon_head peer_addr else ""
  peer_ip ≠ "" && is_public_ip peer_ip

/-- `datetime.min` (year 1) as a UTC nanosecond timestamp. -/
def WALLCLOCK_MIN_NS : Int := -62135596800 * 1000000000

/-- The last second of `datetime.max` (year 9999) as a UTC nanosecond
timestamp. -/
def WALLCLOCK_MAX_NS : Int := 253402300799 * 1000000000

/-- Whether `datetime.fromtimestamp(ts / 1e9)` (line 1327) succeeds:
`fromtimestamp` accepts exactly the timestamps that land inside the
`datetime` year range 1..9999, here taken in UTC (a server running with a
non-UTC local time shifts both cut points by its offset; every timestamp the
theorems below instantiate is far inside or far outside the range, so the
boundary sliver is immaterial to them). -/
def ts_wallclock_ok (ts : Int) : Bool := WALLCLOCK_MIN_NS ≤ ts && ts ≤ WALLCLOCK_MAX_NS

/-- Whether `process_record` raises an exception on this record, in stage
order: nothing before the event-kind guard can raise; then the peer probe of
lines 896-907; a firing `transfer_completed` branch returns early (so nothing
after it can raise on such a record); then the other-peer probe of
lines 1153-1157 (the re-parses of `this_peer` at lines 1016, 1110 and 1148
raise only if the probe of line 901 already did, since `this_peer` is probed
there first); then the subscription block of lines 1262-1302; finally
`datetime.fromtimestamp` at line 1327, reached only when a display peer was
found.  Nothing after `track_transaction` raises. -/
def record_raises (r : Record) : Bool :=
  if event_type_of r = "" then false
  else if event_peer_raises [r.body.this_peer, r.body.requester, r.body.target] then true
  else if event_type_of r = "transfer_completed" && transfer_fires r then false
  else if other_probe_raises [r.body.connected_peer, r.body.target, r.body.requester,
                              r.body.subscriber, r.body.upstream] then true
  else if subscription_raises r then true
  else if (display_of r).isSome && !ts_wallclock_ok r.timestamp then true
  else false

/-- Whether this record kills the rest of its line: either `process_record`
raises on it, or the record is a successfully-processed firing
`transfer_completed` — its returned dict has no `"event_type"` key, so the
tailer's lookup at line 1837 raises `KeyError` inside the same per-line
`try`. -/
def record_aborts_line (r : Record) : Bool :=
  record_raises r ||
    (event_type_of r = "transfer_completed" && transfer_fires r
      && !event_peer_raises [r.body.this_peer, r.body.requester, r.body.target])

/-- A raw record is handled without killing its line: its timestamp converts
and no exception fires during or right after its processing. -/
def record_handles (rr : RawRecord) : Bool :=
  match parse_time rr.timeUnixNano with
  | none => false
  | some ts => !record_aborts_line ⟨rr.attrs, ts, rr.body⟩

/-- One record of the tail loop: `error` when the record kills the rest of its
line (unconvertible timestamp, an exception listed in `record_raises`, or the
transfer `KeyError`), `ok` with the interpreter's result otherwise.  On an
abort the embedded line processor keeps the pre-record state, while the
Python process may have mutated parts of it before raising (and, for the
transfer `KeyError`, has processed the record fully); the theorems about
aborted lines therefore speak only of the handed-records component — except
for the timestamp conversion, which raises at line 863 before any mutation,
so there the state equality is also faithful. -/
def process_record_exc (cfg : HashCfg) (rr : RawRecord) (s : ServerState) :
    Except Unit (ServerState × Option OutMsg) :=
  match parse_time rr.timeUnixNano with
  | none => Except.error ()
  | some ts =>
    if record_aborts_line ⟨rr.attrs, ts, rr.body⟩ then Except.error ()
    else Except.ok (process_record cfg ⟨rr.attrs, ts, rr.body⟩ s)

/-- Process the records of one parsed line in order; the result's second
component is the list of records actually handed to the interpreter (the
record that raises is handed, the records after it are not). -/
def process_line (cfg : HashCfg) (s : ServerState) :
    List RawRecord → ServerState × List RawRecord
  | [] => (s, [])
  | r :: rs =>
    match process_record_exc cfg r s with
    | Except.error _ => (s, [r])
    | Except.ok pr =>
      let rest := process_line cfg pr.1 rs
      (rest.1, r :: rest.2)

/-- The iteration `resourceLogs → scopeLogs → logRecords` flattened in nested
order. -/
def envelope_records (e : List (List (List RawRecord))) : List RawRecord :=
  e.flatten.flatten

/-- One iteration of the tail loop on a full line: skip on JSON parse failure,
otherwise hand the envelope's records to the interpreter. -/
def tail_line (cfg : HashCfg) (s : ServerState)
    (line : Option (List (List (List RawRecord)))) : ServerState :=
  match line with
  | none => s
  | some env => (process_line cfg s (envelope_records env)).1

def tail_lines (cfg : HashCfg) (s : ServerState)
    (lines : List (Option (List (List (List RawRecord))))) : ServerState :=
  lines.foldl (tail_line cfg) s

/-- The records of a line handed to the interpreter, starting from state `s`. -/
def line_handed (cfg : HashCfg) (s : ServerState) (env : List (List (List RawRecord))) :
    List RawRecord :=
  (process_line cfg s (envelope_records env)).2

/-! ## Shared concrete instantiations for witnesses and counterexamples -/

/-- A concrete hash configuration standing in for the SHA-256 truncations (the
properties below never depend on the hash values themselves). -/
def cfg_lit : HashCfg := ⟨fun ip => "peer-" ++ ip, fun ip => "h-" ++ ip⟩

def c6_msgs : List String := (List.range 101).map toString

def c7_state : NamesState := { name_change_timestamps := [("hh", [10, 20, 30, 40, 50])] }

/-! # Claim C5 — contract-state timestamps are monotone -/

/-- One call to `update_contract_state`, as data. -/
structure CSUpd where
  contract_key : String
  peer_id : String
  state_hash : String
  timestamp : Int
  event_type : String
deriving DecidableEq, Repr

def apply_cs_updates (us : List CSUpd) (s : ServerState) : ServerState :=
  us.foldl (fun s u =>
    update_contract_state u.contract_key u.peer_id u.state_hash u.timestamp u.event_type s) s

/-- An update is applied to the `(ck, pid)` record when it targets those keys
and passes the truthiness guard of `update_contract_state`. -/
def cs_applies (ck pid : String) (u : CSUpd) : Bool :=
  u.contract_key = ck && u.peer_id = pid && u.contract_key ≠ "" && u.peer_id ≠ ""
    && u.state_hash ≠ ""

/-- The timestamps of the updates applied to the `(ck, pid)` record. -/
def applied_ts (ck pid : String) (us : List CSUpd) : List Int :=
  (us.filter (cs_applies ck pid)).map CSUpd.timestamp

/-- The stored timestamp of the `(ck, pid)` contract-state record. -/
def cur_ts (s : ServerState) (ck pid : String) : Option Int :=
  (alist_get pid ((alist_get ck s.contract_states).getD [])).map CState.timestamp

def c5_u1 : CSUpd := ⟨"K", "P", "h1", 10, "put_success"⟩

def c5_u2 : CSUpd := ⟨"K", "P", "h2", 5, "get_success"⟩

def c1_bad : RawRecord := { timeUnixNano := "oops" }

def c1_good : RawRecord :=
  { timeUnixNano := "7", attrs := { event_type := some "get_request" } }

/-- A record whose `this_peer` matches the peer regex with the three-dot
location text `1.2.3`: `float("1.2.3")` raises `ValueError` out of the probe
loop. -/
def c1_float : RawRecord :=
  { timeUnixNano := "5", attrs := { event_type := some "connect" }
    body := { this_peer := some "X@1.2.3.4:5 (@1.2.3)" } }

/-- A record with a clean public peer but a timestamp far beyond year 9999:
`datetime.fromtimestamp` raises after the display peer is found. -/
def c1_bigts : RawRecord :=
  { timeUnixNano := "999999999999999999999999", attrs := { event_type := some "connect" }
    body := { this_peer := some "X@1.2.3.4:5 (@0.5)" } }

/-- A `transfer_completed` record with a public `peer_addr`: processed fully
and early-returning a dict with no `"event_type"` key, on which the tailer's
line 1837 lookup raises `KeyError`. -/
def c1_transfer : RawRecord :=
  { timeUnixNano := "7", attrs := { event_type := some "transfer_completed" }
    body := { peer_addr := some "9.9.9.9:1" } }

/-- Fields of the server state untouched by most interpreter stages. -/
structure FrameOk (s' s : ServerState) : Prop where
  conn : s'.connections = s.connections
  keys : alist_keys s'.peers = alist_keys s.peers
  ops : s'.op_stats = s.op_stats
  pend : s'.pending_ops = s.pending_ops
  txs : s'.transactions = s.transactions
  ord : s'.transaction_order = s.transaction_order

/-- Process a list of records in order. -/
def process_records (cfg : HashCfg) (s : ServerState) (rs : List Record) : ServerState :=
  rs.foldl (fun s r => (process_record cfg r s).1) s

/-- The number of records in `rs` whose resolved event kind is `et`. -/
def count_et (et : String) (rs : List Record) : Nat :=
  (rs.filter (fun r => event_type_of r = et)).length

/-- A record carrying a 3-character transaction id on a tracked operation
kind, reported by a public peer. -/
def rC8 : Record :=
  { attrs := { event_type := some "put_request", transaction_id := some "abc" }
    timestamp := 5
    body := { this_peer := some "P@9.9.9.9:1 (@0.5)" } }

/-- A record whose `this_peer` carries the telemetry identity `OLD` for IP
`9.9.9.9`, with no `peer_id` attribute: the contract-state write records the
identity, but none of the id maps do. -/
def rC2 : Record :=
  { attrs := { event_type := some "put_success" }
    timestamp := 0
    body := { this_peer := some "OLD@9.9.9.9:1 (@0.5)", contract_key := some "K",
              state_hash := some "h" } }

def c2_s1 : ServerState := (process_record cfg_lit rC2 init_state).1

def c2_now : Int := STALE_PEER_THRESHOLD_NS + 1

/-- The C3 invariant: every edge of the global connection set has both
endpoint IPs present in the peers index. -/
def edge_inv (s : ServerState) : Prop :=
  ∀ c ∈ s.connections, c.1 ∈ alist_keys s.peers ∧ c.2 ∈ alist_keys s.peers

/-- A connect event between two public parseable peers. -/
def c3_rec : Record :=
  { attrs := { event_type := some "connect", peer_id := some "A" }
    timestamp := 1
    body := { this_peer := some "A@1.2.3.4:1 (@0.5)",
              connected_peer := some "B@5.6.7.8:1 (@0.25)" } }

@[simp] theorem alist_get_nil (k : String) : alist_get k ([] : List (String × α)) = none := rfl

@[simp] theorem alist_get_cons (k k' : String) (v : α) (t : List (String × α)) :
    alist_get k ((k', v) :: t) = if k' = k then some v else alist_get k t := rfl

theorem alist_get_set_self (k : String) (v : α) (l : List (String × α)) :
    alist_get k (alist_set k v l) = some v := by
  induction l with
  | nil => simp [alist_set]
  | cons h t ih =>
    obtain ⟨k', v'⟩ := h
    by_cases hk : k' = k
    · subst hk; simp [alist_set]
    · simp [alist_set, hk, ih]

theorem alist_get_set_ne (k a : String) (v : α) (l : List (String × α)) (h : a ≠ k) :
    alist_get a (alist_set k v l) = alist_get a l := by
  induction l with
  | nil => simp [alist_set, Ne.symm h]
  | cons hd t ih =>
    obtain ⟨k', v'⟩ := hd
    by_cases hk : k' = k
    · subst hk; simp [alist_set, Ne.symm h]
    · by_cases ha : k' = a
      · subst ha; simp [alist_set, hk]
      · simp [alist_set, hk, ha, ih]

theorem alist_get_adjust_self (k : String) (f : α → α) (l : List (String × α)) :
    alist_get k (alist_adjust k f l) = (alist_get k l).map f := by
  induction l with
  | nil => simp [alist_adjust]
  | cons hd t ih =>
    obtain ⟨k', v'⟩ := hd
    by_cases hk : k' = k
    · subst hk; simp [alist_adjust]
    · simp [alist_adjust, hk, ih]

theorem alist_get_adjust_ne (k a : String) (f : α → α) (l : List (String × α)) (h : a ≠ k) :
    alist_get a (alist_adjust k f l) = alist_get a l := by
  induction l with
  | nil => simp [alist_adjust]
  | cons hd t ih =>
    obtain ⟨k', v'⟩ := hd
    by_cases hk : k' = k
    · subst hk; simp [alist_adjust, Ne.symm h]
    · by_cases ha : k' = a
      · subst ha; simp [alist_adjust, hk]
      · simp [alist_adjust, hk, ha, ih]

theorem alist_get_pop_self (k : String) (l : List (String × α)) :
    alist_get k (alist_pop k l) = none := by
  induction l with
  | nil => simp [alist_pop]
  | cons hd t ih =>
    obtain ⟨k', v'⟩ := hd
    by_cases hk : k' = k
    · subst hk; simpa [alist_pop] using ih
    · simpa [alist_pop, hk] using ih

theorem alist_get_pop_ne (k a : String) (l : List (String × α)) (h : a ≠ k) :
    alist_get a (alist_pop k l) = alist_get a l := by
  induction l with
  | nil => simp [alist_pop]
  | cons hd t ih =>
    obtain ⟨k', v'⟩ := hd
    by_cases hk : k' = k
    · subst hk
      have h1 : ∀ (u : String) (w : α) (ts : List (String × α)),
          alist_pop u ((u, w) :: ts) = alist_pop u ts := by
        intro u w ts; simp [alist_pop]
      rw [h1, ih]
      simp [Ne.symm h]
    · by_cases ha : k' = a
      · subst ha; simp [alist_pop, hk]
      · simpa [alist_pop, hk, ha] using ih

@[simp] theorem alist_keys_nil : alist_keys ([] : List (String × α)) = [] := rfl

@[simp] theorem alist_keys_cons (k : String) (v : α) (t : List (String × α)) :
    alist_keys ((k, v) :: t) = k :: alist_keys t := rfl

theorem alist_keys_adjust (k : String) (f : α → α) (l : List (String × α)) :
    alist_keys (alist_adjust k f l) = alist_keys l := by
  induction l with
  | nil => rfl
  | cons hd t ih =>
    obtain ⟨k', v'⟩ := hd
    by_cases hk : k' = k
    · subst hk; simp [alist_adjust]
    · simp [alist_adjust, hk, ih]

theorem mem_alist_keys_set (k a : String) (v : α) (l : List (String × α)) :
    a ∈ alist_keys (alist_set k v l) ↔ a ∈ alist_keys l ∨ a = k := by
  induction l with
  | nil => simp [alist_set]
  | cons hd t ih =>
    obtain ⟨k', v'⟩ := hd
    by_cases hk : k' = k
    · subst hk; simp [alist_set]; tauto
    · simp [alist_set, hk, ih]; tauto

theorem alist_get_isSome_iff_mem_keys (a : String) (l : List (String × α)) :
    (alist_get a l).isSome ↔ a ∈ alist_keys l := by
  induction l with
  | nil => simp
  | cons hd t ih =>
    obtain ⟨k', v'⟩ := hd
    by_cases ha : k' = a
    · subst ha; simp
    · simp [ha, ih, Ne.symm ha]

theorem mem_keys_of_alist_get_eq_some (a : String) (v : α) (l : List (String × α))
    (h : alist_get a l = some v) : a ∈ alist_keys l := by
  have := (alist_get_isSome_iff_mem_keys a l).mp (by simp [h])
  exact this

/-! # Claim C4 — `sanitize_name` result shape

The function's own contract (docstring, lines 112-115, and the spec) promises
`(name, None)` or `(None, reason)` and truncation-then-processing for long
names.  The early return at line 117 instead produces
`(name[:30], "Name too long")` — both components non-null — for any name
longer than 30 characters, skipping the trim/classify path entirely; the
caller (line 1962) then treats the truncated name as accepted. -/

/-- C4 (code bug witness): on the 31-character name `"a" * 31`, `sanitize_name`
with no external classifier returns a non-null name *and* a non-null rejection
reason simultaneously — `(some ("a" * 30), some "Name too long")` — instead of
one of the two promised shapes, and the name is truncated to 30 (not 20) and
never trimmed or classified. -/
theorem c4_sanitize_name_both_non_null :
    sanitize_name none (String.mk (List.replicate 31 'a'))
      = (some (String.mk (List.replicate 30 'a')), some "Name too long") ∧
    (sanitize_name none (String.mk (List.replicate 31 'a'))).1.isSome = true ∧
    (sanitize_name none (String.mk (List.replicate 31 'a'))).2.isSome = true := by
  refine ⟨?_, rfl, rfl⟩
  rfl

/-! # Claim C6 — drop-oldest backpressure -/
theorem enqueue_all_closed (h : ClientHandler) (msgs : List String) (hc : h.closed = false) :
    (enqueue_all h msgs).closed = false := by
  induction msgs generalizing h with
  | nil => exact hc
  | cons m ms ih =>
    have : (ClientHandler.enqueue h m).closed = false := by
      unfold ClientHandler.enqueue
      rw [hc]
      simp only [Bool.false_eq_true, if_false]
      split <;> simp
    exact ih _ this

theorem enqueue_step (q : List String) (d : Nat) (m : String) :
    ClientHandler.enqueue ⟨q, d, false⟩ m =
      if q.length < 100 then ⟨q ++ [m], d, false⟩ else ⟨q.tail ++ [m], d + 1, false⟩ := by
  unfold ClientHandler.enqueue
  simp [CLIENT_QUEUE_MAX]

theorem enqueue_all_spec (msgs : List String) :
    ∀ (q : List String) (d : Nat), q.length ≤ 100 →
    enqueue_all ⟨q, d, false⟩ msgs =
      ⟨(q ++ msgs).drop ((q.length + msgs.length) - 100),
       d + ((q.length + msgs.length) - 100), false⟩ := by
  induction msgs with
  | nil =>
    intro q d hq
    simp only [enqueue_all, List.foldl_nil, List.append_nil, List.length_nil, Nat.add_zero]
    rw [Nat.sub_eq_zero_of_le hq]
    simp
  | cons m ms ih =>
    intro q d hq
    have step : enqueue_all ⟨q, d, false⟩ (m :: ms)
        = enqueue_all (ClientHandler.enqueue ⟨q, d, false⟩ m) ms := by
      simp [enqueue_all]
    by_cases hlt : q.length < 100
    · rw [step, enqueue_step, if_pos hlt, ih (q ++ [m]) d (by simp; omega)]
      have e2 : (q ++ [m]).length + ms.length - 100 = q.length + (m :: ms).length - 100 := by
        simp only [List.length_append, List.length_cons, List.length_nil]
        omega
      rw [e2, List.append_assoc]
      simp
    · have hq100 : q.length = 100 := by omega
      have hne : q ≠ [] := by
        intro hnil
        rw [hnil] at hq100
        simp at hq100
      obtain ⟨x, q', rfl⟩ := List.exists_cons_of_ne_nil hne
      have hq' : q'.length + 1 = 100 := by simpa using hq100
      rw [step, enqueue_step, if_neg hlt, ih (List.tail (x :: q') ++ [m]) (d + 1) (by simp; omega)]
      simp only [List.tail_cons]
      have e2 : (q' ++ [m]).length + ms.length - 100
          = (x :: q').length + (m :: ms).length - 100 - 1 := by
        simp only [List.length_append, List.length_cons, List.length_nil]
        omega
      have e3 : ((x :: q') ++ m :: ms).drop ((x :: q').length + (m :: ms).length - 100)
          = (q' ++ m :: ms).drop ((x :: q').length + (m :: ms).length - 100 - 1) := by
        simp only [List.cons_append, List.length_cons]
        rw [show q'.length + 1 + (ms.length + 1) - 100
            = (q'.length + 1 + (ms.length + 1) - 100 - 1) + 1 by omega]
        rw [List.drop_succ_cons]
        congr 1
      have e4 : d + 1 + ((x :: q').length + (m :: ms).length - 100 - 1)
          = d + ((x :: q').length + (m :: ms).length - 100) := by
        simp only [List.length_append, List.length_cons, List.length_nil]
        omega
      rw [e2, e3, e4, List.append_assoc]
      simp

/-- C6: enqueuing `N > 100` messages into an empty queue of a session whose
sender never runs keeps exactly the last 100 messages in insertion order,
loses the earlier ones, and leaves `dropped_count = N - 100`. -/
theorem c6_drop_oldest (msgs : List String) (h : msgs.length > 100) :
    (enqueue_all {} msgs).queue = msgs.drop (msgs.length - 100) ∧
    (enqueue_all {} msgs).queue.length = 100 ∧
    (enqueue_all {} msgs).dropped_count = msgs.length - 100 := by
  have := enqueue_all_spec msgs [] 0 (by simp)
  have hdef : ({} : ClientHandler) = ⟨[], 0, false⟩ := rfl
  rw [hdef, this]
  refine ⟨by simp, ?_, by simp⟩
  simp only [List.nil_append, List.length_nil, Nat.zero_add, List.length_drop]
  omega

/-- C6 witness: a concrete run with 101 messages keeps `m2..m101` and drops
exactly one. -/
theorem c6_drop_oldest_witness :
    c6_msgs.length > 100 ∧
    ((enqueue_all {} c6_msgs).queue = c6_msgs.drop (c6_msgs.length - 100) ∧
     (enqueue_all {} c6_msgs).queue.length = 100 ∧
     (enqueue_all {} c6_msgs).dropped_count = c6_msgs.length - 100) :=
  ⟨by decide, c6_drop_oldest c6_msgs (by decide)⟩

/-! # Claim C10 — empty `set_peer_name` is silently ignored -/

/-- C10: a `set_peer_name` message whose name is missing, empty, or
whitespace-only, from a client with a non-empty self-id hash, produces no
reply and no broadcast and leaves the name state untouched; the session loop
just continues. -/
theorem c10_empty_name_silent (classify : Option (String → Except Unit String))
    (st : NamesState) (hash : String) (nf : Option String) (now : Int)
    (hh : hash ≠ "") (hempty : py_strip (nf.getD "") = "") :
    handle_set_peer_name classify hash nf now st = (st, [], []) := by
  unfold handle_set_peer_name
  simp [hempty, hh]

/-- C10 witness: concrete whitespace-only name. -/
theorem c10_empty_name_silent_witness :
    ("hh" : String) ≠ "" ∧ py_strip ((some "   " : Option String).getD "") = "" ∧
    handle_set_peer_name none "hh" (some "   ") 100
        { name_change_timestamps := [("hh", [10, 20, 30, 40, 50])] }
      = ({ name_change_timestamps := [("hh", [10, 20, 30, 40, 50])] }, [], []) :=
  ⟨by decide, by decide, c10_empty_name_silent none _ "hh" (some "   ") 100 (by decide) (by decide)⟩

/-! # Claim C7 — rate-limit rejection does nothing else -/

/-- C7: when a self-id hash already has `NAME_CHANGE_LIMIT` accepted changes
inside the rolling hour, a further `set_peer_name` is answered with a single
`name_set_result` whose `success` is `false` and whose error is the computed
"Try again in N min" message; no broadcast is emitted, the persisted name map
is untouched, and no rate-limit tick is recorded (every timestamp in the new
state was already present in the old one — pruning only discards). -/
theorem c7_rate_limit_rejection
    (classify : Option (String → Except Unit String)) (st : NamesState)
    (hash : String) (nf : Option String) (now : Int)
    (hh : hash ≠ "") (hname : py_strip (nf.getD "") ≠ "")
    (hlim : (((alist_get hash st.name_change_timestamps).getD []).filter
        (fun t => now - t < NAME_CHANGE_WINDOW)).length ≥ NAME_CHANGE_LIMIT) :
    (handle_set_peer_name classify hash nf now st).2.1 =
      [⟨false, none, some ("Too many changes. Try again in "
        ++ toString ((NAME_CHANGE_WINDOW - (now - min_list
            (((alist_get hash st.name_change_timestamps).getD []).filter
              (fun t => now - t < NAME_CHANGE_WINDOW))) + 1) / 60) ++ " min")⟩] ∧
    (handle_set_peer_name classify hash nf now st).2.2 = [] ∧
    (handle_set_peer_name classify hash nf now st).1.peer_names = st.peer_names ∧
    (∀ h2 ts, alist_get h2 (handle_set_peer_name classify hash nf now st).1.name_change_timestamps
        = some ts →
      ∀ t ∈ ts, ∃ ts0, alist_get h2 st.name_change_timestamps = some ts0 ∧ t ∈ ts0) := by
  cases hget : alist_get hash st.name_change_timestamps with
  | none =>
    exfalso
    rw [hget] at hlim
    simp [NAME_CHANGE_LIMIT] at hlim
  | some ts0 =>
    rw [hget] at hlim
    simp only [Option.getD_some] at hlim
    have hfull : ¬ ((ts0.filter (fun t => now - t < NAME_CHANGE_WINDOW)).length
        < NAME_CHANGE_LIMIT) := by omega
    have hrl : check_rate_limit hash now st =
        (false,
         NAME_CHANGE_WINDOW - (now - min_list (ts0.filter (fun t => now - t < NAME_CHANGE_WINDOW))) + 1,
         ⟨st.peer_names,
          alist_set hash (ts0.filter (fun t => now - t < NAME_CHANGE_WINDOW))
            st.name_change_timestamps⟩) := by
      unfold check_rate_limit
      rw [hget]
      simp [hfull]
    have hout : handle_set_peer_name classify hash nf now st =
        (⟨st.peer_names,
          alist_set hash (ts0.filter (fun t => now - t < NAME_CHANGE_WINDOW))
            st.name_change_timestamps⟩,
         [⟨false, none, some ("Too many changes. Try again in "
            ++ toString ((NAME_CHANGE_WINDOW - (now - min_list
                (ts0.filter (fun t => now - t < NAME_CHANGE_WINDOW))) + 1) / 60) ++ " min")⟩],
         []) := by
      unfold handle_set_peer_name
      rw [hrl]
      simp [hh, hname]
    rw [hout]
    simp only [hget, Option.getD_some]
    refine ⟨trivial, trivial, trivial, ?_⟩
    intro h2 ts hts t ht
    by_cases h2h : h2 = hash
    · subst h2h
      rw [alist_get_set_self] at hts
      cases hts
      exact ⟨ts0, hget, (List.mem_filter.mp ht).1⟩
    · rw [alist_get_set_ne _ _ _ _ h2h] at hts
      exact ⟨ts, hts, ht⟩

/-- C7 witness: a concrete hash with five in-window accepted changes is
rejected with the computed wait and nothing else changes. -/
theorem c7_rate_limit_rejection_witness :
    (("hh" : String) ≠ "" ∧ py_strip ((some "Nicename" : Option String).getD "") ≠ "" ∧
     (((alist_get "hh" c7_state.name_change_timestamps).getD []).filter
        (fun t => (100 : Int) - t < NAME_CHANGE_WINDOW)).length ≥ NAME_CHANGE_LIMIT) ∧
    ((handle_set_peer_name none "hh" (some "Nicename") 100 c7_state).2.1 =
      [⟨false, none, some ("Too many changes. Try again in "
        ++ toString ((NAME_CHANGE_WINDOW - (100 - min_list
            (((alist_get "hh" c7_state.name_change_timestamps).getD []).filter
              (fun t => (100 : Int) - t < NAME_CHANGE_WINDOW))) + 1) / 60) ++ " min")⟩] ∧
     (handle_set_peer_name none "hh" (some "Nicename") 100 c7_state).2.2 = [] ∧
     (handle_set_peer_name none "hh" (some "Nicename") 100 c7_state).1.peer_names
        = c7_state.peer_names ∧
     (∀ h2 ts, alist_get h2
          (handle_set_peer_name none "hh" (some "Nicename") 100 c7_state).1.name_change_timestamps
          = some ts →
        ∀ t ∈ ts, ∃ ts0, alist_get h2 c7_state.name_change_timestamps = some ts0 ∧ t ∈ ts0)) :=
  ⟨⟨by decide, by decide, by decide⟩,
   c7_rate_limit_rejection none c7_state "hh" (some "Nicename") 100
     (by decide) (by decide) (by decide)⟩

theorem foldl_max_mem (l : List Int) : ∀ a : Int, l.foldl max a = a ∨ l.foldl max a ∈ l := by
  induction l with
  | nil => intro a; left; rfl
  | cons x xs ih =>
    intro a
    rcases ih (max a x) with h | h
    · rcases max_choice a x with hm | hm
      · left; rw [List.foldl_cons, h, hm]
      · right; rw [List.foldl_cons, h, hm]; exact List.mem_cons_self x xs
    · right; exact List.mem_cons_of_mem x h

theorem le_foldl_max (l : List Int) :
    ∀ a : Int, a ≤ l.foldl max a ∧ ∀ t ∈ l, t ≤ l.foldl max a := by
  induction l with
  | nil => intro a; exact ⟨le_refl a, by simp⟩
  | cons x xs ih =>
    intro a
    obtain ⟨h1, h2⟩ := ih (max a x)
    constructor
    · exact le_trans (le_max_left a x) h1
    · intro t ht
      rcases List.mem_cons.mp ht with rfl | ht
      · exact le_trans (le_max_right a t) h1
      · exact h2 t ht

theorem update_contract_state_guard (ck pid h : String) (ts : Int) (et : String)
    (s : ServerState) (hg : ck = "" ∨ pid = "" ∨ h = "") :
    update_contract_state ck pid h ts et s = s := by
  unfold update_contract_state
  rcases hg with hg | hg | hg <;> simp [hg]

theorem cur_ts_update_self (ck pid h : String) (ts : Int) (et : String) (s : ServerState)
    (hck : ck ≠ "") (hpid : pid ≠ "") (hh : h ≠ "") :
    cur_ts (update_contract_state ck pid h ts et s) ck pid =
      some (match cur_ts s ck pid with
            | none => ts
            | some t0 => if t0 ≥ ts then t0 else ts) := by
  have hw : ∀ s' : ServerState,
      cur_ts (update_contract_state.write_contract_state ck pid h ts et s') ck pid = some ts := by
    intro s'
    unfold update_contract_state.write_contract_state
    cases hev : (et = "update_success" || et = "update_broadcast_applied"
        || et = "update_broadcast_emitted" : Bool) <;>
      simp [hev, cur_ts, alist_get_set_self]
  have hg : (decide (ck = "") || decide (pid = "") || decide (h = "")) = false := by
    simp [hck, hpid, hh]
  unfold update_contract_state
  simp only [hg, Bool.false_eq_true, if_false]
  cases hex : alist_get pid ((alist_get ck s.contract_states).getD []) with
  | none =>
    have hc : cur_ts s ck pid = none := by simp [cur_ts, hex]
    rw [hc]
    simpa using hw s
  | some ex =>
    have hc : cur_ts s ck pid = some ex.timestamp := by simp [cur_ts, hex]
    rw [hc]
    by_cases hts : ex.timestamp ≥ ts
    · simpa [hts] using hc
    · simpa [hts] using hw s

theorem cur_ts_update_irrel (ck pid h : String) (ts : Int) (et : String) (s : ServerState)
    (ck' pid' : String) (hne : ¬ (ck' = ck ∧ pid' = pid)) :
    cur_ts (update_contract_state ck pid h ts et s) ck' pid' = cur_ts s ck' pid' := by
  have hw : cur_ts (update_contract_state.write_contract_state ck pid h ts et s) ck' pid'
      = cur_ts s ck' pid' := by
    unfold update_contract_state.write_contract_state
    by_cases hck : ck' = ck
    · subst hck
      have hpid : pid' ≠ pid := fun hp => hne ⟨rfl, hp⟩
      cases hev : (et = "update_success" || et = "update_broadcast_applied"
          || et = "update_broadcast_emitted" : Bool) <;>
        simp [hev, cur_ts, alist_get_set_self, alist_get_set_ne _ _ _ _ hpid]
    · cases hev : (et = "update_success" || et = "update_broadcast_applied"
          || et = "update_broadcast_emitted" : Bool) <;>
        simp [hev, cur_ts, alist_get_set_ne _ _ _ _ hck]
  unfold update_contract_state
  cases hg : (decide (ck = "") || decide (pid = "") || decide (h = "")) with
  | true => simp [hg]
  | false =>
    simp only [hg, if_false, Bool.false_eq_true]
    cases hex : alist_get pid ((alist_get ck s.contract_states).getD []) with
    | none => simpa [hex] using hw
    | some ex =>
      by_cases hts : ex.timestamp ≥ ts
      · simp [hex, hts]
      · simpa [hex, hts] using hw

theorem cur_ts_apply_cs (us : List CSUpd) :
    ∀ (s : ServerState) (ck pid : String),
    cur_ts (apply_cs_updates us s) ck pid =
      match cur_ts s ck pid, applied_ts ck pid us with
      | none, [] => none
      | none, t :: rest => some (rest.foldl max t)
      | some t0, rest => some (rest.foldl max t0) := by
  induction us with
  | nil =>
    intro s ck pid
    simp only [apply_cs_updates, List.foldl_nil, applied_ts, List.filter_nil, List.map_nil]
    cases h : cur_ts s ck pid <;> simp
  | cons u us ih =>
    intro s ck pid
    have hstep : apply_cs_updates (u :: us) s = apply_cs_updates us
        (update_contract_state u.contract_key u.peer_id u.state_hash u.timestamp u.event_type s) := by
      simp [apply_cs_updates]
    rw [hstep]
    by_cases happ : cs_applies ck pid u
    · have hmatch : u.contract_key = ck ∧ u.peer_id = pid ∧ u.contract_key ≠ ""
          ∧ u.peer_id ≠ "" ∧ u.state_hash ≠ "" := by
        have := happ
        unfold cs_applies at this
        simp only [Bool.and_eq_true, decide_eq_true_eq, ne_eq, Bool.not_eq_true', decide_eq_false_iff_not] at this
        tauto
      obtain ⟨hck, hpid, hck0, hpid0, hh0⟩ := hmatch
      have hsel : cur_ts (update_contract_state u.contract_key u.peer_id u.state_hash
          u.timestamp u.event_type s) ck pid =
          some (match cur_ts s ck pid with
                | none => u.timestamp
                | some t0 => if t0 ≥ u.timestamp then t0 else u.timestamp) := by
        rw [hck, hpid] at *
        exact cur_ts_update_self ck pid u.state_hash u.timestamp u.event_type s hck0 hpid0 hh0
      rw [ih _ ck pid, hsel]
      have hfilter : applied_ts ck pid (u :: us) = u.timestamp :: applied_ts ck pid us := by
        simp [applied_ts, List.filter_cons, happ]
      rw [hfilter]
      cases hcur : cur_ts s ck pid with
      | none => simp
      | some t0 =>
        simp only []
        have : (if t0 ≥ u.timestamp then t0 else u.timestamp) = max t0 u.timestamp := by
          rcases le_or_lt u.timestamp t0 with hle | hlt
          · simp [hle, max_eq_left hle]
          · have : ¬ t0 ≥ u.timestamp := not_le.mpr hlt
            simp [this, max_eq_right (le_of_lt hlt)]
        rw [this]
        cases applied_ts ck pid us <;> simp [List.foldl_cons]
    · have hfilter : applied_ts ck pid (u :: us) = applied_ts ck pid us := by
        simp [applied_ts, List.filter_cons, happ]
      rw [hfilter]
      by_cases hg : u.contract_key = "" ∨ u.peer_id = "" ∨ u.state_hash = ""
      · rw [update_contract_state_guard _ _ _ _ _ _ hg]
        exact ih s ck pid
      · push_neg at hg
        obtain ⟨h1, h2, h3⟩ := hg
        have hne : ¬ (ck = u.contract_key ∧ pid = u.peer_id) := by
          intro ⟨e1, e2⟩
          apply happ
          unfold cs_applies
          simp [e1, e2, h1, h2, h3]
        rw [ih _ ck pid, cur_ts_update_irrel _ _ _ _ _ _ _ _ hne]

/-- C5: an `update_contract_state` call whose timestamp is older than the
stored record leaves the whole state unchanged, and after any sequence of
calls starting from the initial state, a stored `(contract, peer)` record's
timestamp is the maximum timestamp among the updates applied to that record
(the calls that pass the truthiness guard and target those keys). -/
theorem c5_contract_state_timestamp_max :
    (∀ (ck pid h : String) (ts : Int) (et : String) (s : ServerState) (ex : CState),
        alist_get pid ((alist_get ck s.contract_states).getD []) = some ex →
        ts < ex.timestamp →
        update_contract_state ck pid h ts et s = s) ∧
    (∀ (us : List CSUpd) (ck pid : String) (r : CState),
        alist_get pid ((alist_get ck (apply_cs_updates us init_state).contract_states).getD [])
          = some r →
        r.timestamp ∈ applied_ts ck pid us ∧ ∀ t ∈ applied_ts ck pid us, t ≤ r.timestamp) := by
  constructor
  · intro ck pid h ts et s ex hex hts
    unfold update_contract_state
    cases hg : (decide (ck = "") || decide (pid = "") || decide (h = "")) with
    | true => simp [hg]
    | false =>
      simp only [hg, if_false, Bool.false_eq_true]
      rw [hex]
      simp only [ge_iff_le]
      rw [if_pos (le_of_lt hts)]
  · intro us ck pid r hr
    have hinit : cur_ts init_state ck pid = none := by
      simp [cur_ts, init_state]
    have := cur_ts_apply_cs us init_state ck pid
    rw [hinit] at this
    have hcur : cur_ts (apply_cs_updates us init_state) ck pid = some r.timestamp := by
      simp [cur_ts, hr]
    rw [hcur] at this
    cases hap : applied_ts ck pid us with
    | nil => rw [hap] at this; simp at this
    | cons t rest =>
      rw [hap] at this
      simp only [Option.some_inj] at this
      constructor
      · rcases foldl_max_mem rest t with h | h
        · rw [this, h]; exact List.mem_cons_self t rest
        · rw [this]; exact List.mem_cons_of_mem t h
      · intro t' ht'
        obtain ⟨h1, h2⟩ := le_foldl_max rest t
        rcases List.mem_cons.mp ht' with rfl | ht'
        · rw [this]; exact h1
        · rw [this]; exact h2 t' ht'

/-- C5 witness: a concrete stale update is ignored and the stored timestamp is
the maximum of the applied updates. -/
theorem c5_contract_state_timestamp_max_witness :
    (alist_get "P" ((alist_get "K" (apply_cs_updates [c5_u1] init_state).contract_states).getD [])
        = some ⟨"h1", 10, "put_success"⟩ ∧
     (5 : Int) < 10 ∧
     update_contract_state "K" "P" "hx" 5 "get_success" (apply_cs_updates [c5_u1] init_state)
        = apply_cs_updates [c5_u1] init_state) ∧
    ((10 : Int) ∈ applied_ts "K" "P" [c5_u1, c5_u2] ∧
     ∀ t ∈ applied_ts "K" "P" [c5_u1, c5_u2], t ≤ (10 : Int)) :=
  ⟨⟨by decide, by decide,
    c5_contract_state_timestamp_max.1 "K" "P" "hx" 5 "get_success"
      (apply_cs_updates [c5_u1] init_state) ⟨"h1", 10, "put_success"⟩ (by decide) (by decide)⟩,
   c5_contract_state_timestamp_max.2 [c5_u1, c5_u2] "K" "P" ⟨"h1", 10, "put_success"⟩ (by decide)⟩

theorem frame_refl (s : ServerState) : FrameOk s s := ⟨rfl, rfl, rfl, rfl, rfl, rfl⟩

theorem frame_trans {s3 s2 s1 : ServerState} (h2 : FrameOk s3 s2) (h1 : FrameOk s2 s1) :
    FrameOk s3 s1 :=
  ⟨h2.conn.trans h1.conn, h2.keys.trans h1.keys, h2.ops.trans h1.ops,
   h2.pend.trans h1.pend, h2.txs.trans h1.txs, h2.ord.trans h1.ord⟩

theorem refresh_frame (epid : String) (ts : Int) (s : ServerState) :
    FrameOk (refresh_known_peer epid ts s) s := by
  unfold refresh_known_peer
  repeat' split
  all_goals first
    | exact ⟨rfl, rfl, rfl, rfl, rfl, rfl⟩
    | exact ⟨rfl, alist_keys_adjust _ _ _, rfl, rfl, rfl, rfl⟩

theorem update_contract_state_frame (ck pid h : String) (ts : Int) (et : String)
    (s : ServerState) : FrameOk (update_contract_state ck pid h ts et s) s := by
  unfold update_contract_state update_contract_state.write_contract_state
  dsimp only
  repeat' split
  all_goals exact ⟨rfl, rfl, rfl, rfl, rfl, rfl⟩

theorem contract_hash_frame (r : Record) (s : ServerState) :
    FrameOk (contract_hash_stage r s) s := by
  unfold contract_hash_stage
  dsimp only
  repeat' split
  all_goals first
    | exact ⟨rfl, rfl, rfl, rfl, rfl, rfl⟩
    | apply update_contract_state_frame

theorem seeding_frame (r : Record) (s : ServerState) : FrameOk (seeding_stage r s) s := by
  unfold seeding_stage
  dsimp only
  repeat' split
  all_goals exact ⟨rfl, rfl, rfl, rfl, rfl, rfl⟩

theorem lifecycle_frame (r : Record) (s : ServerState) : FrameOk (lifecycle_stage r s) s := by
  unfold lifecycle_stage
  dsimp only
  repeat' split
  all_goals exact ⟨rfl, rfl, rfl, rfl, rfl, rfl⟩

theorem addr_refresh_one_frame (ts : Int) (s : ServerState) (f : Option String) :
    FrameOk (addr_refresh_one ts s f) s := by
  unfold addr_refresh_one
  dsimp only
  repeat' split
  all_goals first
    | exact ⟨rfl, rfl, rfl, rfl, rfl, rfl⟩
    | exact ⟨rfl, alist_keys_adjust _ _ _, rfl, rfl, rfl, rfl⟩

theorem addr_refresh_frame (r : Record) (ts : Int) (s : ServerState) :
    FrameOk (addr_refresh_stage r ts s) s := by
  unfold addr_refresh_stage
  refine frame_trans (frame_trans (frame_trans (frame_trans (frame_trans
    (frame_trans (frame_refl _) (addr_refresh_one_frame _ _ _)) (addr_refresh_one_frame _ _ _))
    (addr_refresh_one_frame _ _ _)) (addr_refresh_one_frame _ _ _))
    (addr_refresh_one_frame _ _ _)) (addr_refresh_one_frame _ _ _)

theorem attrs_map_addr_loop_frame (apid : String) (s : ServerState)
    (fs : List (Option String)) : FrameOk (attrs_map_addr_loop apid s fs) s := by
  induction fs generalizing s with
  | nil => exact frame_refl _
  | cons f fs ih =>
    unfold attrs_map_addr_loop
    dsimp only
    repeat' split
    all_goals first
      | exact ⟨rfl, rfl, rfl, rfl, rfl, rfl⟩
      | exact ih _

theorem attrs_map_frame (r : Record) (s : ServerState) : FrameOk (attrs_map_stage r s) s := by
  unfold attrs_map_stage
  dsimp only
  split
  · refine frame_trans (attrs_map_addr_loop_frame _ _ _) ?_
    repeat' split
    all_goals exact ⟨rfl, rfl, rfl, rfl, rfl, rfl⟩
  · exact frame_refl _

theorem subscription_frame (cfg : HashCfg) (r : Record) (s : ServerState) :
    FrameOk (subscription_stage cfg r s) s := by
  unfold subscription_stage
  dsimp only
  repeat' split
  all_goals exact ⟨rfl, rfl, rfl, rfl, rfl, rfl⟩

theorem transfer_frame (cfg : HashCfg) (r : Record) (s s' : ServerState) (te : TransferEvent)
    (h : transfer_stage cfg r s = some (s', te)) : FrameOk s' s := by
  unfold transfer_stage at h
  dsimp only at h
  repeat' split at h
  all_goals first
    | (rw [Option.some.injEq, Prod.mk.injEq] at h; obtain ⟨h2, h3⟩ := h; subst h2; exact ⟨rfl, rfl, rfl, rfl, rfl, rfl⟩)
    | exact absurd h (by simp)

theorem op_stats_stage_keep (et tx : String) (ts : Int) (s : ServerState) :
    (op_stats_stage et tx ts s).connections = s.connections ∧
    alist_keys (op_stats_stage et tx ts s).peers = alist_keys s.peers ∧
    (op_stats_stage et tx ts s).transactions = s.transactions ∧
    (op_stats_stage et tx ts s).transaction_order = s.transaction_order := by
  unfold op_stats_stage
  dsimp only
  cases hp : alist_get tx s.pending_ops with
  | none =>
    dsimp only
    simp only [apply_ite ServerState.connections, apply_ite ServerState.peers,
      apply_ite alist_keys, apply_ite ServerState.transactions,
      apply_ite ServerState.transaction_order, ite_self]
    repeat' apply And.intro
    all_goals trivial
  | some p =>
    dsimp only
    simp only [apply_ite ServerState.connections, apply_ite ServerState.peers,
      apply_ite alist_keys, apply_ite ServerState.transactions,
      apply_ite ServerState.transaction_order, ite_self]
    repeat' apply And.intro
    all_goals trivial

theorem update_peer_entry_keep (cfg : HashCfg) (ref : Option (String × Rat)) (pid : String)
    (ts : Int) (s : ServerState) :
    (update_peer_entry cfg ref pid ts s).connections = s.connections ∧
    (update_peer_entry cfg ref pid ts s).op_stats = s.op_stats ∧
    (update_peer_entry cfg ref pid ts s).pending_ops = s.pending_ops ∧
    (update_peer_entry cfg ref pid ts s).transactions = s.transactions ∧
    (update_peer_entry cfg ref pid ts s).transaction_order = s.transaction_order := by
  unfold update_peer_entry cleanup_stale_peer_id
  dsimp only
  repeat' split
  all_goals exact ⟨rfl, rfl, rfl, rfl, rfl⟩

theorem update_peers_keep (cfg : HashCfg) (r : Record) (s : ServerState) :
    (update_peers_stage cfg r s).connections = s.connections ∧
    (update_peers_stage cfg r s).op_stats = s.op_stats ∧
    (update_peers_stage cfg r s).pending_ops = s.pending_ops ∧
    (update_peers_stage cfg r s).transactions = s.transactions ∧
    (update_peers_stage cfg r s).transaction_order = s.transaction_order := by
  unfold update_peers_stage
  have h1 := update_peer_entry_keep cfg ((this_ref_of r).map (fun t => (t.ip, t.loc)))
    (sget r.attrs.peer_id) r.timestamp s
  have h2 := update_peer_entry_keep cfg ((other_ref_of r).map (fun t => (t.ip, t.loc)))
    (((other_ref_of r).map PeerRef.pid).getD "") r.timestamp
    (update_peer_entry cfg ((this_ref_of r).map (fun t => (t.ip, t.loc)))
      (sget r.attrs.peer_id) r.timestamp s)
  exact ⟨h2.1.trans h1.1, h2.2.1.trans h1.2.1, h2.2.2.1.trans h1.2.2.1,
    h2.2.2.2.1.trans h1.2.2.2.1, h2.2.2.2.2.trans h1.2.2.2.2⟩

theorem connection_stage_keep (cfg : HashCfg) (r : Record) (s : ServerState) :
    alist_keys (connection_stage cfg r s).1.peers = alist_keys s.peers ∧
    (connection_stage cfg r s).1.op_stats = s.op_stats ∧
    (connection_stage cfg r s).1.pending_ops = s.pending_ops ∧
    (connection_stage cfg r s).1.transactions = s.transactions ∧
    (connection_stage cfg r s).1.transaction_order = s.transaction_order := by
  unfold connection_stage
  dsimp only
  repeat' split
  all_goals exact ⟨by simp [alist_keys_adjust], rfl, rfl, rfl, rfl⟩

theorem event_build_keep (cfg : HashCfg) (r : Record) (a b : Option (String × String))
    (dip : String) (dloc : Rat) (s : ServerState) :
    (event_build_stage cfg r a b dip dloc s).1.connections = s.connections ∧
    alist_keys (event_build_stage cfg r a b dip dloc s).1.peers = alist_keys s.peers ∧
    (event_build_stage cfg r a b dip dloc s).1.op_stats = s.op_stats ∧
    (event_build_stage cfg r a b dip dloc s).1.pending_ops = s.pending_ops := by
  unfold event_build_stage
  dsimp only
  repeat' split
  all_goals exact ⟨rfl, rfl, rfl, rfl⟩

theorem op_stats_stage_counts (et tx : String) (ts : Int) (s : ServerState) :
    (op_stats_stage et tx ts s).op_stats.get.requests
      = s.op_stats.get.requests + (if et = "get_request" then 1 else 0) ∧
    (op_stats_stage et tx ts s).op_stats.get.successes
      = s.op_stats.get.successes + (if et = "get_success" then 1 else 0) ∧
    (op_stats_stage et tx ts s).op_stats.put.requests
      = s.op_stats.put.requests + (if et = "put_request" then 1 else 0) ∧
    (op_stats_stage et tx ts s).op_stats.update.requests
      = s.op_stats.update.requests + (if et = "update_request" then 1 else 0) := by
  unfold op_stats_stage
  dsimp only
  cases hp : alist_get tx s.pending_ops with
  | none =>
    dsimp only
    simp only [apply_ite ServerState.op_stats, apply_ite OpStats.get, apply_ite OpStats.put,
      apply_ite OpStats.update, apply_ite GetStats.requests, apply_ite GetStats.successes,
      apply_ite PutStats.requests, apply_ite UpdateStats.requests, ite_self]
    repeat' split
    all_goals simp_all
  | some p =>
    dsimp only
    simp only [apply_ite ServerState.op_stats, apply_ite OpStats.get, apply_ite OpStats.put,
      apply_ite OpStats.update, apply_ite GetStats.requests, apply_ite GetStats.successes,
      apply_ite PutStats.requests, apply_ite UpdateStats.requests, ite_self]
    repeat' split
    all_goals simp_all

theorem process_record_ops (cfg : HashCfg) (r : Record) (s : ServerState)
    (het : ¬ event_type_of r = "") :
    (process_record cfg r s).1.op_stats
      = (op_stats_stage (event_type_of r) (tx_id_of r) r.timestamp
          (contract_hash_stage r (refresh_known_peer (event_peer_of r).1 r.timestamp s))).op_stats := by
  unfold process_record
  dsimp only
  rw [if_neg het]
  split
  case _ sx te heq =>
    split at heq
    · exact (transfer_frame cfg r _ sx te heq).ops
    · exact absurd heq (by simp)
  case _ heq =>
    split
    · exact ((subscription_frame _ _ _).ops).trans
        (((connection_stage_keep _ _ _).2.1).trans
          (((update_peers_keep _ _ _).2.1).trans
            (((attrs_map_frame _ _).ops).trans
              (((addr_refresh_frame _ _ _).ops).trans
                (((lifecycle_frame _ _).ops).trans ((seeding_frame _ _).ops))))))
    · exact ((event_build_keep _ _ _ _ _ _ _).2.2.1).trans
        (((subscription_frame _ _ _).ops).trans
          (((connection_stage_keep _ _ _).2.1).trans
            (((update_peers_keep _ _ _).2.1).trans
              (((attrs_map_frame _ _).ops).trans
                (((addr_refresh_frame _ _ _).ops).trans
                  (((lifecycle_frame _ _).ops).trans ((seeding_frame _ _).ops)))))))

theorem process_record_counters (cfg : HashCfg) (r : Record) (s : ServerState) :
    (process_record cfg r s).1.op_stats.get.requests
      = s.op_stats.get.requests + (if event_type_of r = "get_request" then 1 else 0) ∧
    (process_record cfg r s).1.op_stats.get.successes
      = s.op_stats.get.successes + (if event_type_of r = "get_success" then 1 else 0) ∧
    (process_record cfg r s).1.op_stats.put.requests
      = s.op_stats.put.requests + (if event_type_of r = "put_request" then 1 else 0) ∧
    (process_record cfg r s).1.op_stats.update.requests
      = s.op_stats.update.requests + (if event_type_of r = "update_request" then 1 else 0) := by
  by_cases het : event_type_of r = ""
  · unfold process_record
    simp [het]
  · have hfin := process_record_ops cfg r s het
    have e12 : (contract_hash_stage r
        (refresh_known_peer (event_peer_of r).1 r.timestamp s)).op_stats = s.op_stats :=
      ((contract_hash_frame r _).ops).trans ((refresh_frame _ _ s).ops)
    have hc := op_stats_stage_counts (event_type_of r) (tx_id_of r) r.timestamp
      (contract_hash_stage r (refresh_known_peer (event_peer_of r).1 r.timestamp s))
    rw [hfin, hc.1, hc.2.1, hc.2.2.1, hc.2.2.2, e12]
    exact ⟨rfl, rfl, rfl, rfl⟩

theorem count_et_cons (et : String) (r : Record) (rs : List Record) :
    count_et et (r :: rs) = (if event_type_of r = et then 1 else 0) + count_et et rs := by
  unfold count_et
  rw [List.filter_cons]
  by_cases h : event_type_of r = et <;> simp [h, Nat.add_comm]

theorem process_records_counters (cfg : HashCfg) :
    ∀ (rs : List Record) (s : ServerState),
      (process_records cfg s rs).op_stats.get.requests
        = s.op_stats.get.requests + count_et "get_request" rs ∧
      (process_records cfg s rs).op_stats.get.successes
        = s.op_stats.get.successes + count_et "get_success" rs ∧
      (process_records cfg s rs).op_stats.put.requests
        = s.op_stats.put.requests + count_et "put_request" rs ∧
      (process_records cfg s rs).op_stats.update.requests
        = s.op_stats.update.requests + count_et "update_request" rs := by
  intro rs
  induction rs with
  | nil => intro s; simp [process_records, count_et]
  | cons r rs ih =>
    intro s
    have h := process_record_counters cfg r s
    have h2 := ih (process_record cfg r s).1
    simp only [process_records, List.foldl_cons] at h2 ⊢
    rw [count_et_cons, count_et_cons, count_et_cons, count_et_cons]
    refine ⟨?_, ?_, ?_, ?_⟩
    · rw [h2.1, h.1]; omega
    · rw [h2.2.1, h.2.1]; omega
    · rw [h2.2.2.1, h.2.2.1]; omega
    · rw [h2.2.2.2, h.2.2.2]; omega

/-- C9: in the `get_operation_stats` snapshot after interpreting any sequence
of records from a fresh server, the `get` total counts both `get_request` and
`get_success` events (a get contributing both counts twice), while the `put`
and `update` totals count only their request events. -/
theorem c9_get_total_counts_requests_and_successes (cfg : HashCfg) (rs : List Record) :
    (get_operation_stats (process_records cfg init_state rs)).get.total
      = count_et "get_request" rs + count_et "get_success" rs ∧
    (get_operation_stats (process_records cfg init_state rs)).put.total
      = count_et "put_request" rs ∧
    (get_operation_stats (process_records cfg init_state rs)).update.total
      = count_et "update_request" rs := by
  have h := process_records_counters cfg rs init_state
  unfold get_operation_stats
  refine ⟨?_, ?_, ?_⟩
  · show (process_records cfg init_state rs).op_stats.get.requests
      + (process_records cfg init_state rs).op_stats.get.successes = _
    rw [h.1, h.2.1]
    simp [init_state]
  · show (process_records cfg init_state rs).op_stats.put.requests = _
    rw [h.2.2.1]
    simp [init_state]
  · show (process_records cfg init_state rs).op_stats.update.requests = _
    rw [h.2.2.2]
    simp [init_state]

/-- C8 counterexample: the 3-character transaction id `"abc"` — neither 26
characters long nor the null id — is tracked: after one `put_request` record
from a public peer it has an entry in the transaction log and appears in the
transaction order. -/
theorem c8_counterexample :
    (tx_id_of rC8).length = 3 ∧ tx_id_of rC8 ≠ NULL_TX_ID ∧
    (alist_get (tx_id_of rC8) (process_record cfg_lit rC8 init_state).1.transactions).isSome
      = true ∧
    "abc" ∈ (process_record cfg_lit rC8 init_state).1.transaction_order := by
  refine ⟨rfl, by decide, by decide, by decide⟩

theorem prune_keep (l : List String) (txs : List (String × Tx))
    (h : l.length ≤ MAX_TRANSACTIONS) : prune_old_transactions l txs = (l, txs) := by
  cases l with
  | nil => rfl
  | cons a t =>
    unfold prune_old_transactions
    rw [if_neg (Nat.not_lt.mpr h)]

theorem track_transaction_creates (tx et : String) (ts : Int) (pid : String)
    (ck : Option String) (bt : String) (txs : List (String × Tx)) (order : List String)
    (hget : alist_get tx txs = none) (hlen : order.length < MAX_TRANSACTIONS)
    (htx : ¬ tx = "") (hnull : ¬ tx = NULL_TX_ID) :
    ((alist_get tx (track_transaction tx et ts pid ck bt txs order).1).isSome = true
      ↔ (op_type_of et).1 ∈ TRACKED_TX_OPS) ∧
    (track_transaction tx et ts pid ck bt txs order).2
      = (if (op_type_of et).1 ∈ TRACKED_TX_OPS then order ++ [tx] else order) := by
  have hlen2 : (order ++ [tx]).length ≤ MAX_TRANSACTIONS := by
    simp only [List.length_append, List.length_cons, List.length_nil]
    simp only [MAX_TRANSACTIONS] at hlen ⊢
    omega
  unfold track_transaction
  rw [if_neg (by simp [htx, hnull])]
  rcases h4 : op_type_of et with ⟨op, istart, iend, st⟩
  dsimp only
  by_cases hop : op ∈ TRACKED_TX_OPS
  · simp [hop, hget, prune_keep _ _ hlen2, alist_get_adjust_self, alist_get_set_self]
  · simp [hop, hget]

/-- The four stages between `op_stats_stage` and `event_build_stage` neither
read nor write the transaction log. -/
theorem post_stages_txs (cfg : HashCfg) (r : Record) (s : ServerState) :
    (subscription_stage cfg r (connection_stage cfg r (update_peers_stage cfg r
      (attrs_map_stage r (addr_refresh_stage r r.timestamp (lifecycle_stage r
        (seeding_stage r s)))))).1).transactions = s.transactions ∧
    (subscription_stage cfg r (connection_stage cfg r (update_peers_stage cfg r
      (attrs_map_stage r (addr_refresh_stage r r.timestamp (lifecycle_stage r
        (seeding_stage r s)))))).1).transaction_order = s.transaction_order := by
  constructor
  · exact ((subscription_frame _ _ _).txs).trans
      (((connection_stage_keep _ _ _).2.2.2.1).trans
        (((update_peers_keep _ _ _).2.2.2.1).trans
          (((attrs_map_frame _ _).txs).trans
            (((addr_refresh_frame _ _ _).txs).trans
              (((lifecycle_frame _ _).txs).trans ((seeding_frame _ _).txs))))))
  · exact ((subscription_frame _ _ _).ord).trans
      (((connection_stage_keep _ _ _).2.2.2.2).trans
        (((update_peers_keep _ _ _).2.2.2.2).trans
          (((attrs_map_frame _ _).ord).trans
            (((addr_refresh_frame _ _ _).ord).trans
              (((lifecycle_frame _ _).ord).trans ((seeding_frame _ _).ord))))))

theorem pre_stages_txs (r : Record) (tx : String) (ts : Int) (s : ServerState) :
    (op_stats_stage (event_type_of r) tx ts (contract_hash_stage r
      (refresh_known_peer (event_peer_of r).1 ts s))).transactions = s.transactions ∧
    (op_stats_stage (event_type_of r) tx ts (contract_hash_stage r
      (refresh_known_peer (event_peer_of r).1 ts s))).transaction_order
      = s.transaction_order := by
  constructor
  · exact ((op_stats_stage_keep _ _ _ _).2.2.1).trans
      (((contract_hash_frame _ _).txs).trans ((refresh_frame _ _ _).txs))
  · exact ((op_stats_stage_keep _ _ _ _).2.2.2).trans
      (((contract_hash_frame _ _).ord).trans ((refresh_frame _ _ _).ord))

/-- C8 (corrected): there is no 26-character check anywhere — among records
whose processing completes without raising (`record_raises r = false`; a
record that raises mid-pipeline, e.g. on a multi-dot location in a probed
peer field or an out-of-range timestamp at the `fromtimestamp` call, never
reaches `track_transaction`), an entry is created in the transaction log iff
the record's event kind is non-empty, the record has a display peer (so the
event-construction block runs), the transaction id is non-empty and not the
null id, and the derived op kind is one of the tracked ones.  The length of
the id is never consulted. -/
theorem c8_tx_tracking_iff (cfg : HashCfg) (r : Record) (s : ServerState)
    (hab : record_raises r = false)
    (hget : alist_get (tx_id_of r) s.transactions = none)
    (hlen : s.transaction_order.length < MAX_TRANSACTIONS) :
    (alist_get (tx_id_of r) (process_record cfg r s).1.transactions).isSome = true
      ↔ (¬ event_type_of r = "" ∧ (display_of r).isSome = true ∧
         ¬ tx_id_of r = "" ∧ ¬ tx_id_of r = NULL_TX_ID ∧
         (op_type_of (event_type_of r)).1 ∈ TRACKED_TX_OPS) := by
  by_cases het : event_type_of r = ""
  · unfold process_record
    simp [het, hget]
  · unfold process_record
    dsimp only
    rw [if_neg het]
    split
    case _ sx te heq =>
      split at heq
      · rename_i hc
        refine iff_of_false ?_ ?_
        · have h1 : sx.transactions = s.transactions :=
            ((transfer_frame cfg r _ sx te heq).txs).trans (pre_stages_txs r _ _ s).1
          simp [h1, hget]
        · rintro ⟨-, -, -, -, hmem⟩
          rw [hc] at hmem
          exact absurd hmem (by decide)
      · exact absurd heq (by simp)
    case _ heq =>
      split
      case _ hd =>
        refine iff_of_false ?_ ?_
        · rw [(post_stages_txs cfg r _).1, (pre_stages_txs r _ _ s).1, hget]
          simp
        · rintro ⟨-, hd2, -⟩
          rw [hd] at hd2
          exact absurd hd2 (by simp)
      case _ dip dloc hd =>
        unfold event_build_stage
        dsimp only
        split
        · rename_i htxc
          rw [Bool.and_eq_true, decide_eq_true_eq, decide_eq_true_eq] at htxc
          rw [(post_stages_txs cfg r _).1, (post_stages_txs cfg r _).2,
            (pre_stages_txs r _ _ s).1, (pre_stages_txs r _ _ s).2]
          rw [(track_transaction_creates _ _ _ _ _ _ _ _ hget hlen htxc.1 htxc.2).1]
          simp [het, hd, htxc.1, htxc.2]
        · rename_i htxc
          have hno : ¬ (¬ tx_id_of r = "" ∧ ¬ tx_id_of r = NULL_TX_ID) := by
            simpa [Bool.and_eq_true, decide_eq_true_eq] using htxc
          refine iff_of_false ?_ ?_
          · rw [(post_stages_txs cfg r _).1, (pre_stages_txs r _ _ s).1, hget]
            simp
          · rintro ⟨-, -, h3, h4, -⟩
            exact hno ⟨h3, h4⟩

theorem c8_tx_tracking_iff_witness :
    (record_raises rC8 = false ∧
     alist_get (tx_id_of rC8) init_state.transactions = none ∧
     init_state.transaction_order.length < MAX_TRANSACTIONS) ∧
    ((alist_get (tx_id_of rC8) (process_record cfg_lit rC8 init_state).1.transactions).isSome
        = true
      ↔ (¬ event_type_of rC8 = "" ∧ (display_of rC8).isSome = true ∧
         ¬ tx_id_of rC8 = "" ∧ ¬ tx_id_of rC8 = NULL_TX_ID ∧
         (op_type_of (event_type_of rC8)).1 ∈ TRACKED_TX_OPS)) :=
  ⟨⟨by decide, rfl, by decide⟩,
   c8_tx_tracking_iff cfg_lit rC8 init_state (by decide) rfl (by decide)⟩

/-- C2 counterexample: after interpreting `rC2`, the IP `9.9.9.9` is stale at
`c2_now` and the sweep removes it from `peers`, yet the identity `OLD` — which
arrived with that IP in `this_peer` and was written into `contract_states` —
is not collected (`spids = []`) and survives inside `contract_states`. -/
theorem c2_counterexample :
    stale_ips_of c2_s1 c2_now = ["9.9.9.9"] ∧
    (this_ref_of rC2).map PeerRef.pid = some "OLD" ∧
    alist_get "9.9.9.9" (cleanup_stale_peers cfg_lit c2_now c2_s1).1.peers = none ∧
    (cleanup_stale_peers cfg_lit c2_now c2_s1).2.2.2 = [] ∧
    (alist_get "K" (cleanup_stale_peers cfg_lit c2_now c2_s1).1.contract_states).map
      alist_keys = some ["OLD"] := by
  refine ⟨by decide, by decide, by decide, by decide, by decide⟩

theorem alist_get_foldl_pop (keys : List String) (k : String) :
    ∀ l : List (String × α),
      alist_get k (keys.foldl (fun acc i => alist_pop i acc) l)
        = if k ∈ keys then none else alist_get k l := by
  induction keys with
  | nil => intro l; simp
  | cons i t ih =>
    intro l
    rw [List.foldl_cons, ih]
    by_cases hk : k = i
    · subst hk
      simp [alist_get_pop_self]
    · rw [alist_get_pop_ne _ _ _ hk]
      by_cases hm : k ∈ t <;> simp [hm, hk]

theorem foldl_popcond_pres (ips : List String) (g : String → String) (k : String) :
    ∀ l : List (String × α), alist_get k l = none →
      alist_get k (ips.foldl
        (fun acc ip => if g ip ≠ "" then alist_pop (g ip) acc else acc) l) = none := by
  induction ips with
  | nil => intro l h; exact h
  | cons i t ih =>
    intro l h
    rw [List.foldl_cons]
    refine ih _ ?_
    split
    · by_cases hk : k = g i
      · subst hk; exact alist_get_pop_self _ _
      · rw [alist_get_pop_ne _ _ _ hk]; exact h
    · exact h

theorem foldl_popcond_hits (ips : List String) (g : String → String) (k : String)
    (hk : ¬ k = "") :
    ∀ l : List (String × α), (∃ ip ∈ ips, g ip = k) →
      alist_get k (ips.foldl
        (fun acc ip => if g ip ≠ "" then alist_pop (g ip) acc else acc) l) = none := by
  induction ips with
  | nil => intro l h; rcases h with ⟨ip, hm, -⟩; cases hm
  | cons i t ih =>
    intro l h
    rw [List.foldl_cons]
    by_cases hgi : g i = k
    · refine foldl_popcond_pres t g k _ ?_
      rw [if_pos (by rw [hgi]; exact hk)]
      rw [hgi]
      exact alist_get_pop_self _ _
    · rcases h with ⟨ip, hm, hgip⟩
      rcases List.mem_cons.mp hm with rfl | hmt
      · exact absurd hgip hgi
      · exact ih _ ⟨ip, hmt, hgip⟩

theorem alist_get_filter_notmem (pid : String) (spids : List String) (h : pid ∈ spids) :
    ∀ l : List (String × α),
      alist_get pid (l.filter (fun q => ¬ q.1 ∈ spids)) = none := by
  intro l
  induction l with
  | nil => rfl
  | cons q t ih =>
    rw [List.filter_cons]
    by_cases hq : q.1 ∈ spids
    · simpa [hq] using ih
    · obtain ⟨a, b⟩ := q
      simp only at hq
      have hne : ¬ a = pid := fun e => hq (by rw [e]; exact h)
      simpa [hq, alist_get, hne] using ih

theorem alist_get_filterMap_none {β γ : Type} (key : String)
    (f : (String × β) → Option (String × γ))
    (hf : ∀ q r, f q = some r → r.1 = q.1) (hkey : ∀ q, q.1 = key → f q = none) :
    ∀ t : List (String × β), alist_get key (t.filterMap f) = none := by
  intro t
  induction t with
  | nil => rfl
  | cons q t ih =>
    rw [List.filterMap_cons]
    cases hfq : f q with
    | none => exact ih
    | some r =>
      have hr1 : r.1 = q.1 := hf q r hfq
      have hne : ¬ r.1 = key := fun e => by
        have h0 := hkey q (by rw [← hr1]; exact e)
        rw [h0] at hfq; cases hfq
      obtain ⟨a, b⟩ := r
      simp only at hr1 hne
      simpa [alist_get, hne] using ih

theorem repair_neighbor_none (sips : List String) (j ip : String)
    (l : List (String × PeerData)) (h : alist_get ip l = none) :
    alist_get ip (repair_neighbor sips j l) = none := by
  unfold repair_neighbor
  split
  · exact h
  · by_cases hj : ip = j
    · subst hj; rw [alist_get_adjust_self, h]; rfl
    · rw [alist_get_adjust_ne _ _ _ _ hj]; exact h

theorem repairs_preserve_none (cs : List (String × String)) (sips : List String)
    (ip : String) :
    ∀ l : List (String × PeerData), alist_get ip l = none →
      alist_get ip (cs.foldl (fun acc c =>
        if c.1 ≠ c.2 then repair_neighbor sips c.2 (repair_neighbor sips c.1 acc)
        else acc) l) = none := by
  induction cs with
  | nil => intro l h; exact h
  | cons c t ih =>
    intro l h
    rw [List.foldl_cons]
    refine ih _ ?_
    split
    · exact repair_neighbor_none _ _ _ _ (repair_neighbor_none _ _ _ _ h)
    · exact h

theorem mem_map_filter {α β : Type} {f : α → β} {p : β → Bool} {l : List α} {x : β}
    (h : x ∈ (l.map f).filter p) : ∃ a, a ∈ l ∧ x = f a := by
  rcases List.mem_filter.mp h with ⟨hm, -⟩
  rcases List.mem_map.mp hm with ⟨a, ha, rfl⟩
  exact ⟨a, ha, rfl⟩

set_option maxHeartbeats 1000000 in
/-- C2 (corrected): the sweep removes the stale IPs themselves from every
ip-keyed index, removes their anonymised ids from subscription data — from
every subscriber set, from the broadcast trees' sender keys, and from every
surviving sender's target set (line 672) — and removes exactly the identities
of `stale_peer_ids_of` — the *currently recorded* ones (the `ip_to_peer_id`
entry, the peer record's `peer_id` field and the `attrs_peer_id_to_ip` keys)
— from the identity-keyed indexes; those are also exactly the identities the
call returns. -/
theorem c2_cleanup_postconditions (cfg : HashCfg) (now : Int) (s : ServerState)
    (ip : String) (hip : ip ∈ stale_ips_of s now) :
    alist_get ip (cleanup_stale_peers cfg now s).1.peers = none ∧
    alist_get ip (cleanup_stale_peers cfg now s).1.ip_to_peer_id = none ∧
    alist_get ip (cleanup_stale_peers cfg now s).1.peer_presence = none ∧
    (¬ sget (alist_get ip s.ip_to_peer_id) = "" →
      alist_get (sget (alist_get ip s.ip_to_peer_id))
        (cleanup_stale_peers cfg now s).1.peer_id_to_ip = none) ∧
    (∀ c ∈ (cleanup_stale_peers cfg now s).1.connections, ¬ c.1 = ip ∧ ¬ c.2 = ip) ∧
    (∀ p ∈ (cleanup_stale_peers cfg now s).1.attrs_peer_id_to_ip, ¬ p.2 = ip) ∧
    (∀ e ∈ (cleanup_stale_peers cfg now s).1.subscriptions,
        ¬ anonymize_ip cfg ip ∈ e.2.subscribers ∧
        alist_get (anonymize_ip cfg ip) e.2.tree = none ∧
        (∀ q ∈ e.2.tree, ¬ anonymize_ip cfg ip ∈ q.2)) ∧
    (∀ pid ∈ stale_peer_ids_of s now,
        alist_get pid (cleanup_stale_peers cfg now s).1.peer_lifecycle = none ∧
        (∀ e ∈ (cleanup_stale_peers cfg now s).1.seeding_state,
          alist_get pid e.2 = none) ∧
        (∀ e ∈ (cleanup_stale_peers cfg now s).1.contract_states,
          alist_get pid e.2 = none) ∧
        (∀ e ∈ (cleanup_stale_peers cfg now s).1.contract_propagation,
          alist_get pid e.2.peers = none)) ∧
    (cleanup_stale_peers cfg now s).2.2.2 = stale_peer_ids_of s now := by
  have hne : ¬ (stale_ips_of s now).isEmpty = true := by
    cases h : stale_ips_of s now with
    | nil => rw [h] at hip; cases hip
    | cons a t => simp
  unfold cleanup_stale_peers
  dsimp only
  rw [if_neg hne]
  dsimp only
  refine ⟨?_, ?_, ?_, ?_, ?_, ?_, ?_, ?_, rfl⟩
  · refine repairs_preserve_none _ _ _ _ ?_
    rw [alist_get_foldl_pop]
    simp [hip]
  · rw [alist_get_foldl_pop]
    simp [hip]
  · rw [alist_get_foldl_pop]
    simp [hip]
  · intro hno
    exact foldl_popcond_hits _ _ _ hno _ ⟨ip, hip, rfl⟩
  · intro c hc
    rcases List.mem_filter.mp hc with ⟨-, hnt⟩
    have h1 : ¬ c.1 ∈ stale_ips_of s now ∧ ¬ c.2 ∈ stale_ips_of s now := by
      simpa [conn_touches] using hnt
    exact ⟨fun e => h1.1 (by rw [e]; exact hip), fun e => h1.2 (by rw [e]; exact hip)⟩
  · intro p hp
    rcases List.mem_filter.mp hp with ⟨-, hnm⟩
    have hnm2 : ¬ p.2 ∈ stale_ips_of s now := by simpa using hnm
    exact fun e => hnm2 (by rw [e]; exact hip)
  · intro e he
    rcases mem_map_filter he with ⟨p0, -, rfl⟩
    have hanon : anonymize_ip cfg ip ∈ (stale_ips_of s now).map (anonymize_ip cfg) :=
      List.mem_map.mpr ⟨ip, hip, rfl⟩
    refine ⟨?_, ?_, ?_⟩
    · intro hmem
      rcases List.mem_filter.mp hmem with ⟨-, hx⟩
      have hx2 : ¬ anonymize_ip cfg ip ∈ (stale_ips_of s now).map (anonymize_ip cfg) := by
        simpa using hx
      exact hx2 hanon
    · refine alist_get_filterMap_none _ _ ?_ ?_ _
      · intro q r hqr
        try dsimp only at hqr
        split at hqr
        · cases hqr
        · try dsimp only at hqr
          split at hqr
          · cases hqr
          · injection hqr with hh
            rw [← hh]
      · intro q hq
        try dsimp only
        rw [if_pos]
        rw [hq]
        exact hanon
    · intro q hq
      rcases List.mem_filterMap.mp hq with ⟨a, -, hfa⟩
      try dsimp only at hfa
      split at hfa
      · cases hfa
      · try dsimp only at hfa
        split at hfa
        · cases hfa
        · injection hfa with hh
          intro hmem
          rw [← hh] at hmem
          try dsimp only at hmem
          rcases List.mem_filter.mp hmem with ⟨-, hx⟩
          have hx2 : ¬ anonymize_ip cfg ip ∈ (stale_ips_of s now).map (anonymize_ip cfg) := by
            simpa using hx
          exact hx2 hanon
  · intro pid hpid
    refine ⟨?_, ?_, ?_, ?_⟩
    · rw [alist_get_foldl_pop]
      simp [hpid]
    · intro e he
      rcases mem_map_filter he with ⟨p0, -, rfl⟩
      exact alist_get_filter_notmem _ _ hpid _
    · intro e he
      rcases mem_map_filter he with ⟨p0, -, rfl⟩
      exact alist_get_filter_notmem _ _ hpid _
    · intro e he
      rcases mem_map_filter he with ⟨p0, -, rfl⟩
      exact alist_get_filter_notmem _ _ hpid _

theorem c2_cleanup_postconditions_witness :
    ("9.9.9.9" ∈ stale_ips_of c2_s1 c2_now) ∧
    (alist_get "9.9.9.9" (cleanup_stale_peers cfg_lit c2_now c2_s1).1.peers = none ∧
     alist_get "9.9.9.9" (cleanup_stale_peers cfg_lit c2_now c2_s1).1.ip_to_peer_id = none ∧
     alist_get "9.9.9.9" (cleanup_stale_peers cfg_lit c2_now c2_s1).1.peer_presence = none ∧
     (¬ sget (alist_get "9.9.9.9" c2_s1.ip_to_peer_id) = "" →
       alist_get (sget (alist_get "9.9.9.9" c2_s1.ip_to_peer_id))
         (cleanup_stale_peers cfg_lit c2_now c2_s1).1.peer_id_to_ip = none) ∧
     (∀ c ∈ (cleanup_stale_peers cfg_lit c2_now c2_s1).1.connections,
        ¬ c.1 = "9.9.9.9" ∧ ¬ c.2 = "9.9.9.9") ∧
     (∀ p ∈ (cleanup_stale_peers cfg_lit c2_now c2_s1).1.attrs_peer_id_to_ip,
        ¬ p.2 = "9.9.9.9") ∧
     (∀ e ∈ (cleanup_stale_peers cfg_lit c2_now c2_s1).1.subscriptions,
        ¬ anonymize_ip cfg_lit "9.9.9.9" ∈ e.2.subscribers ∧
        alist_get (anonymize_ip cfg_lit "9.9.9.9") e.2.tree = none ∧
        (∀ q ∈ e.2.tree, ¬ anonymize_ip cfg_lit "9.9.9.9" ∈ q.2)) ∧
     (∀ pid ∈ stale_peer_ids_of c2_s1 c2_now,
        alist_get pid (cleanup_stale_peers cfg_lit c2_now c2_s1).1.peer_lifecycle = none ∧
        (∀ e ∈ (cleanup_stale_peers cfg_lit c2_now c2_s1).1.seeding_state,
          alist_get pid e.2 = none) ∧
        (∀ e ∈ (cleanup_stale_peers cfg_lit c2_now c2_s1).1.contract_states,
          alist_get pid e.2 = none) ∧
        (∀ e ∈ (cleanup_stale_peers cfg_lit c2_now c2_s1).1.contract_propagation,
          alist_get pid e.2.peers = none)) ∧
     (cleanup_stale_peers cfg_lit c2_now c2_s1).2.2.2 = stale_peer_ids_of c2_s1 c2_now) :=
  ⟨by decide, c2_cleanup_postconditions cfg_lit c2_now c2_s1 "9.9.9.9" (by decide)⟩

theorem edge_inv_of_eq {s' s : ServerState} (hc : s'.connections = s.connections)
    (hk : alist_keys s'.peers = alist_keys s.peers) (h : edge_inv s) : edge_inv s' := by
  intro c hm
  rw [hk]
  exact h c (hc ▸ hm)

theorem edge_inv_frame {s' s : ServerState} (hf : FrameOk s' s) (h : edge_inv s) :
    edge_inv s' := edge_inv_of_eq hf.conn hf.keys h

set_option maxHeartbeats 1600000 in
theorem update_peer_entry_keys_mono (cfg : HashCfg) (ref : Option (String × Rat))
    (pid : String) (ts : Int) (s : ServerState) (x : String)
    (hx : x ∈ alist_keys s.peers) :
    x ∈ alist_keys (update_peer_entry cfg ref pid ts s).peers := by
  unfold update_peer_entry cleanup_stale_peer_id
  dsimp only
  repeat' split
  all_goals try simp only [alist_keys_adjust, mem_alist_keys_set]
  all_goals first
    | exact hx
    | exact Or.inl hx

set_option maxHeartbeats 1600000 in
theorem update_peer_entry_adds (cfg : HashCfg) (ip : String) (loc : Rat)
    (pid : String) (ts : Int) (s : ServerState) (hpub : is_public_ip ip = true) :
    ip ∈ alist_keys (update_peer_entry cfg (some (ip, loc)) pid ts s).peers := by
  have hclean : ∀ (o : String) (st : ServerState),
      (cleanup_stale_peer_id o st).peers = st.peers := fun o st => rfl
  unfold update_peer_entry
  dsimp only
  cases hm : alist_get ip s.peers with
  | none =>
    simp only [Option.isSome_none, Bool.and_false, Bool.false_eq_true, if_false]
    rw [if_pos hpub]
    rw [hm]
    try dsimp only
    repeat' split
    all_goals simp [hclean, alist_keys_adjust, mem_alist_keys_set]
  | some d =>
    simp only [Option.isSome_some, Bool.and_true]
    rw [if_pos hpub]
    try rw [if_pos hpub]
    try dsimp only
    rw [alist_get_adjust_self, hm]
    simp only [Option.map_some']
    try dsimp only
    have hmem := mem_keys_of_alist_get_eq_some _ _ _ hm
    repeat' split
    all_goals simp [hclean, alist_keys_adjust, mem_alist_keys_set, hmem]

theorem update_peers_edge_inv (cfg : HashCfg) (r : Record) (s : ServerState)
    (h : edge_inv s) : edge_inv (update_peers_stage cfg r s) := by
  intro c hm
  rw [(update_peers_keep cfg r s).1] at hm
  have h1 := h c hm
  unfold update_peers_stage
  exact ⟨update_peer_entry_keys_mono _ _ _ _ _ _
           (update_peer_entry_keys_mono _ _ _ _ _ _ h1.1),
         update_peer_entry_keys_mono _ _ _ _ _ _
           (update_peer_entry_keys_mono _ _ _ _ _ _ h1.2)⟩

theorem update_peers_stage_provides (cfg : HashCfg) (r : Record) (s : ServerState) :
    (∀ t, this_ref_of r = some t → is_public_ip t.ip = true →
       t.ip ∈ alist_keys (update_peers_stage cfg r s).peers) ∧
    (∀ o, other_ref_of r = some o → is_public_ip o.ip = true →
       o.ip ∈ alist_keys (update_peers_stage cfg r s).peers) := by
  constructor
  · intro t ht hpub
    unfold update_peers_stage
    simp only [ht, Option.map_some']
    exact update_peer_entry_keys_mono _ _ _ _ _ _
      (update_peer_entry_adds cfg t.ip t.loc _ _ _ hpub)
  · intro o ho hpub
    unfold update_peers_stage
    simp only [ho, Option.map_some']
    exact update_peer_entry_adds cfg o.ip o.loc _ _ _ hpub

set_option maxHeartbeats 1600000 in
theorem connection_stage_edge_inv (cfg : HashCfg) (r : Record) (s : ServerState)
    (hinv : edge_inv s)
    (hthis : ∀ t, this_ref_of r = some t → is_public_ip t.ip = true →
       t.ip ∈ alist_keys s.peers)
    (hother : ∀ o, other_ref_of r = some o → is_public_ip o.ip = true →
       o.ip ∈ alist_keys s.peers) :
    edge_inv (connection_stage cfg r s).1 := by
  unfold connection_stage
  dsimp only
  repeat' split
  all_goals first
    | exact hinv
    | (intro c hc
       simp only [alist_keys_adjust]
       first
         | (rcases List.mem_filter.mp hc with ⟨h, -⟩
            exact hinv c h)
         | (rcases List.mem_append.mp hc with h | h
            · exact hinv c h
            · rw [List.mem_singleton] at h
              subst h
              rename this_ref_of r = some _ => h1
              rename other_ref_of r = some _ => h2
              rename (is_public_ip _ && is_public_ip _) = true => hp
              rw [Bool.and_eq_true] at hp
              obtain ⟨hp1, hp2⟩ := hp
              have hT := hthis _ h1 hp1
              have hO := hother _ h2 hp2
              unfold mk_conn
              split
              · exact ⟨hT, hO⟩
              · exact ⟨hO, hT⟩))

theorem op_stats_edge_inv (et tx : String) (ts : Int) (s : ServerState)
    (h : edge_inv s) : edge_inv (op_stats_stage et tx ts s) :=
  edge_inv_of_eq (op_stats_stage_keep et tx ts s).1 (op_stats_stage_keep et tx ts s).2.1 h

theorem repair_neighbor_keys (sips : List String) (j : String)
    (l : List (String × PeerData)) :
    alist_keys (repair_neighbor sips j l) = alist_keys l := by
  unfold repair_neighbor
  split
  · rfl
  · exact alist_keys_adjust _ _ _

theorem repairs_keys (cs : List (String × String)) (sips : List String) :
    ∀ l : List (String × PeerData),
      alist_keys (cs.foldl (fun acc c =>
        if c.1 ≠ c.2 then repair_neighbor sips c.2 (repair_neighbor sips c.1 acc)
        else acc) l) = alist_keys l := by
  induction cs with
  | nil => intro l; rfl
  | cons c t ih =>
    intro l
    rw [List.foldl_cons, ih]
    split
    · rw [repair_neighbor_keys, repair_neighbor_keys]
    · rfl

theorem mem_keys_foldl_pop (ips : List String) (x : String) (l : List (String × α))
    (hx : x ∈ alist_keys l) (hnot : ¬ x ∈ ips) :
    x ∈ alist_keys (ips.foldl (fun acc i => alist_pop i acc) l) := by
  rw [← alist_get_isSome_iff_mem_keys] at hx ⊢
  rw [alist_get_foldl_pop]
  simpa [hnot] using hx

theorem cleanup_edge_inv (cfg : HashCfg) (now : Int) (s : ServerState) (h : edge_inv s) :
    edge_inv (cleanup_stale_peers cfg now s).1 := by
  by_cases he : (stale_ips_of s now).isEmpty = true
  · unfold cleanup_stale_peers
    dsimp only
    rw [if_pos he]
    exact h
  · unfold cleanup_stale_peers
    dsimp only
    rw [if_neg he]
    dsimp only
    intro c hc
    rcases List.mem_filter.mp hc with ⟨hmem, hnt⟩
    have hnt2 : ¬ (c.1 ∈ stale_ips_of s now ∨ c.2 ∈ stale_ips_of s now) := by
      simpa [conn_touches] using hnt
    have h0 := h c hmem
    rw [repairs_keys]
    constructor
    · exact mem_keys_foldl_pop _ _ _ h0.1 (fun hx => hnt2 (Or.inl hx))
    · exact mem_keys_foldl_pop _ _ _ h0.2 (fun hx => hnt2 (Or.inr hx))

theorem cleanup_pending_edge_inv (now : Int) (s : ServerState) (h : edge_inv s) :
    edge_inv (cleanup_stale_pending_ops now s) := fun c hc => h c hc

theorem cleanup_propagation_edge_inv (now : Int) (s : ServerState) (h : edge_inv s) :
    edge_inv (cleanup_stale_propagation now s) := fun c hc => h c hc

theorem process_record_edge_inv (cfg : HashCfg) (r : Record) (s : ServerState)
    (h : edge_inv s) : edge_inv (process_record cfg r s).1 := by
  unfold process_record
  dsimp only
  split
  · exact h
  · split
    case _ sx te heq =>
      split at heq
      · exact edge_inv_frame (transfer_frame cfg r _ sx te heq)
          (op_stats_edge_inv _ _ _ _
            (edge_inv_frame (contract_hash_frame _ _)
              (edge_inv_frame (refresh_frame _ _ _) h)))
      · exact absurd heq (by simp)
    case _ heq =>
      split
      · exact edge_inv_frame (subscription_frame _ _ _)
          (connection_stage_edge_inv _ _ _
            (update_peers_edge_inv _ _ _
              (edge_inv_frame (attrs_map_frame _ _)
                (edge_inv_frame (addr_refresh_frame _ _ _)
                  (edge_inv_frame (lifecycle_frame _ _)
                    (edge_inv_frame (seeding_frame _ _)
                      (op_stats_edge_inv _ _ _ _
                        (edge_inv_frame (contract_hash_frame _ _)
                          (edge_inv_frame (refresh_frame _ _ _) h))))))))
            (update_peers_stage_provides _ _ _).1
            (update_peers_stage_provides _ _ _).2)
      · exact edge_inv_of_eq (event_build_keep _ _ _ _ _ _ _).1
          (event_build_keep _ _ _ _ _ _ _).2.1
          (edge_inv_frame (subscription_frame _ _ _)
            (connection_stage_edge_inv _ _ _
              (update_peers_edge_inv _ _ _
                (edge_inv_frame (attrs_map_frame _ _)
                  (edge_inv_frame (addr_refresh_frame _ _ _)
                    (edge_inv_frame (lifecycle_frame _ _)
                      (edge_inv_frame (seeding_frame _ _)
                        (op_stats_edge_inv _ _ _ _
                          (edge_inv_frame (contract_hash_frame _ _)
                            (edge_inv_frame (refresh_frame _ _ _) h))))))))
              (update_peers_stage_provides _ _ _).1
              (update_peers_stage_provides _ _ _).2))

theorem run_steps_edge_inv (cfg : HashCfg) (steps : List Step) :
    edge_inv (run_steps cfg steps) := by
  have h0 : edge_inv init_state := by intro c hc; cases hc
  have hgen : ∀ (l : List Step) (s : ServerState), edge_inv s →
      edge_inv (l.foldl (apply_step cfg) s) := by
    intro l
    induction l with
    | nil => intro s hs; exact hs
    | cons st t ih =>
      intro s hs
      rw [List.foldl_cons]
      refine ih _ ?_
      cases st with
      | interp r => exact process_record_edge_inv cfg r s hs
      | sweep n =>
        exact cleanup_propagation_edge_inv _ _
          (cleanup_pending_edge_inv _ _ (cleanup_edge_inv cfg n s hs))
  exact hgen steps init_state h0

/-- C3: in every state reachable by interleaving interpreter calls and cleanup
sweeps from the fresh server, every edge of the connection set has both
endpoint IPs present in the peers index.  (The sweep is atomic here, so the
source caveat about IPs mid-deletion is subsumed: the invariant holds after
every completed mutation.) -/
theorem c3_edge_endpoints_in_peers (cfg : HashCfg) (steps : List Step) :
    ∀ c ∈ (run_steps cfg steps).connections,
      c.1 ∈ alist_keys (run_steps cfg steps).peers ∧
      c.2 ∈ alist_keys (run_steps cfg steps).peers :=
  run_steps_edge_inv cfg steps

theorem c3_edge_endpoints_in_peers_witness :
    ("1.2.3.4", "5.6.7.8") ∈ (run_steps cfg_lit [Step.interp c3_rec]).connections ∧
    ("1.2.3.4" ∈ alist_keys (run_steps cfg_lit [Step.interp c3_rec]).peers ∧
     "5.6.7.8" ∈ alist_keys (run_steps cfg_lit [Step.interp c3_rec]).peers) :=
  ⟨by decide,
   c3_edge_endpoints_in_peers cfg_lit [Step.interp c3_rec] ("1.2.3.4", "5.6.7.8")
     (by decide)⟩

/-- C1 counterexample: each abort cause, exhibited on a two-record line whose
second record is well formed.  A record with an unconvertible `timeUnixNano`,
a record whose `this_peer`'s leftmost regex match carries the location text
`1.2.3` (so `float` raises `ValueError`), a record with a clean display peer
but a timestamp beyond the `fromtimestamp` range, and a fully-processed
public `transfer_completed` record (whose returned dict has no `"event_type"`
key, raising `KeyError` at tailer line 1837) each leave the following
well-formed record unhanded; the same well-formed record alone on a line is
handed normally. -/
theorem c1_counterexample :
    (c1_good ∈ envelope_records [[[c1_bad, c1_good]]] ∧
     line_handed cfg_lit init_state [[[c1_bad, c1_good]]] = [c1_bad] ∧
     c1_good ∉ line_handed cfg_lit init_state [[[c1_bad, c1_good]]] ∧
     line_handed cfg_lit init_state [[[c1_good]]] = [c1_good]) ∧
    (line_handed cfg_lit init_state [[[c1_float, c1_good]]] = [c1_float] ∧
     line_handed cfg_lit init_state [[[c1_bigts, c1_good]]] = [c1_bigts] ∧
     line_handed cfg_lit init_state [[[c1_transfer, c1_good]]] = [c1_transfer]) := by
  refine ⟨⟨by decide, by decide, by decide, by decide⟩, by decide, by decide, by decide⟩

theorem process_line_all_handled (cfg : HashCfg) :
    ∀ (rs : List RawRecord) (s : ServerState),
      (∀ r ∈ rs, record_handles r = true) →
      (process_line cfg s rs).2 = rs := by
  intro rs
  induction rs with
  | nil => intro s _; rfl
  | cons r rs ih =>
    intro s h
    have hr : record_handles r = true := h r (by simp)
    unfold record_handles at hr
    cases hts : parse_time r.timeUnixNano with
    | none => rw [hts] at hr; cases hr
    | some ts =>
      rw [hts] at hr
      have hab : record_aborts_line ⟨r.attrs, ts, r.body⟩ = false := by
        simpa using hr
      simp only [process_line, process_record_exc, hts, hab, if_false]
      exact congrArg (List.cons r) (ih _ (fun x hx => h x (by simp [hx])))

/-- C1 (corrected): exception handling in the tailer is per *line*, not per
record.  (1) A line all of whose records are handled cleanly — timestamp
converts and none of the per-record exception points fires
(`record_handles`) — is handed to the interpreter in full; (2) lines are
processed independently, so a bad line never stalls later lines; but a record
that raises aborts the rest of its own line, the failing record being the
last one handed: (3) on an unconvertible timestamp (raised before any
mutation, so the state is also untouched), and (4) on any of the mid-pipeline
exception points — a `float` `ValueError` in a probed peer field, the
`transfer_completed` dict's missing `"event_type"` key, or an out-of-range
`fromtimestamp` — collected in `record_aborts_line`. -/
theorem c1_tail_line_granularity :
    (∀ (cfg : HashCfg) (s : ServerState) (env : List (List (List RawRecord))),
        (∀ r ∈ envelope_records env, record_handles r = true) →
        line_handed cfg s env = envelope_records env) ∧
    (∀ (cfg : HashCfg) (s : ServerState) (line : Option (List (List (List RawRecord))))
        (rest : List (Option (List (List (List RawRecord))))),
        tail_lines cfg s (line :: rest) = tail_lines cfg (tail_line cfg s line) rest) ∧
    (∀ (cfg : HashCfg) (s : ServerState) (r : RawRecord) (rs : List RawRecord),
        parse_time r.timeUnixNano = none →
        process_line cfg s (r :: rs) = (s, [r])) ∧
    (∀ (cfg : HashCfg) (s : ServerState) (r : RawRecord) (rs : List RawRecord) (ts : Int),
        parse_time r.timeUnixNano = some ts →
        record_aborts_line ⟨r.attrs, ts, r.body⟩ = true →
        (process_line cfg s (r :: rs)).2 = [r]) := by
  refine ⟨?_, ?_, ?_, ?_⟩
  · intro cfg s env h
    exact process_line_all_handled cfg _ s h
  · intro cfg s line rest; rfl
  · intro cfg s r rs h
    simp [process_line, process_record_exc, h]
  · intro cfg s r rs ts hts hab
    simp [process_line, process_record_exc, hts, hab]

theorem c1_tail_line_granularity_witness :
    (line_handed cfg_lit init_state [[[c1_good]]] = envelope_records [[[c1_good]]]) ∧
    (tail_lines cfg_lit init_state [some [[[c1_bad]]], some [[[c1_good]]]] =
      tail_lines cfg_lit (tail_line cfg_lit init_state (some [[[c1_bad]]]))
        [some [[[c1_good]]]]) ∧
    (parse_time c1_bad.timeUnixNano = none ∧
      process_line cfg_lit init_state [c1_bad, c1_good] = (init_state, [c1_bad])) ∧
    (parse_time c1_float.timeUnixNano = some 5 ∧
      record_aborts_line ⟨c1_float.attrs, 5, c1_float.body⟩ = true ∧
      (process_line cfg_lit init_state [c1_float, c1_good]).2 = [c1_float]) :=
  ⟨c1_tail_line_granularity.1 cfg_lit init_state [[[c1_good]]] (by decide),
   c1_tail_line_granularity.2.1 cfg_lit init_state (some [[[c1_bad]]]) [some [[[c1_good]]]],
   ⟨by decide, c1_tail_line_granularity.2.2.1 cfg_lit init_state c1_bad [c1_good] (by decide)⟩,
   ⟨by decide, by decide,
    c1_tail_line_granularity.2.2.2 cfg_lit init_state c1_float [c1_good] 5
      (by decide) (by decide)⟩⟩

end WsServer
